import Mathlib

/-!
# weatherline: enum codec, JSON decoders and digest formatter

A shallow embedding of the pure parts of `yyotti/weatherline`:

* `enums.go`            : `Lang`, `Units`, `Weather` and their token tables,
* `weather.go`          : `apiTime.UnmarshalJSON`, the forecast data model,
* `weatherline/cmd/*.go`: the glyph table, `truncHour`, `createHourly`,
  `createDaily` and the message assembled by `run`.

Library behaviour the code relies on (package `time`, `encoding/json`, `fmt`)
is modelled explicitly and documented where it is introduced.
-/

namespace Weatherline

/-! ## Package `time` -/

/-- What `(*time.Location).lookup(sec)` reports for a Unix second: the offset
(seconds east of Greenwich) in effect there, and the Unix seconds at which the
zone period with that offset starts and ends. -/
structure ZoneSpan where
  offset : Int
  start : Int
  finish : Int
  deriving DecidableEq, Repr

/-- A `*time.Location`, by its `lookup`. -/
structure Location where
  lookup : Int → ZoneSpan

/-- `time.FixedZone`: one offset for all of time. -/
def Location.fixed (offset : Int) : Location :=
  { lookup := fun _ =>
      { offset := offset, start := -9223372036854775808, finish := 9223372036854775807 } }

/-- The offset `time.Date` subtracts from a wall clock to reach the instant:
`unix` is the wall clock read as if it were UTC; the offset in effect at `unix`
is taken when the instant it leads to lies in the same zone period, otherwise
the offset in effect at that instant. -/
def Location.dateOffset (loc : Location) (unix : Int) : Int :=
  let z := loc.lookup unix
  if z.offset ≠ 0 then
    let utc := unix - z.offset
    if utc < z.start ∨ utc ≥ z.finish then (loc.lookup utc).offset else z.offset
  else 0

/-- A `time.Time`: the instant in nanoseconds since the Unix epoch together with
the UTC offset (seconds east of Greenwich) that its location has at that
instant.  The integer range of Go's representation is not modelled. -/
structure Time where
  ns : Int
  off : Int
  deriving DecidableEq, Repr

namespace Time

/-- One `time.Second` in nanoseconds. -/
def Second : Int := 1000000000

/-- One `time.Hour` in nanoseconds. -/
def Hour : Int := 3600 * Second

/-- Nanoseconds from Go's zero time (January 1, year 1, 00:00 UTC) to the Unix
epoch: 62135596800 seconds. -/
def unixToInternal : Int := 62135596800 * Second

/-- `time.Unix(sec, nsec)`; the result carries the process-local zone. -/
def Unix (localOff : Int) (sec nsec : Int) : Time :=
  { ns := sec * Second + nsec, off := localOff }

/-- `t.In(loc)`: same instant, shown in the location `loc`. -/
def In (t : Time) (loc : Location) : Time :=
  { t with off := (loc.lookup (t.ns / Second)).offset }

/-- `t.Add(d)`. -/
def Add (t : Time) (d : Int) : Time :=
  { t with ns := t.ns + d }

/-- `t.Truncate(d)`: round down to a multiple of `d` since the zero time;
`d <= 0` returns `t` unchanged.  The location is kept. -/
def Truncate (t : Time) (d : Int) : Time :=
  if d ≤ 0 then t else t.Add (-((t.ns + unixToInternal) % d))

/-- Seconds since the Unix epoch of the wall clock shown in the location of `t`. -/
def wallSec (t : Time) : Int :=
  t.ns / Second + t.off

/-- `t.Hour()`: hour of the day in the location of `t`, in `[0, 23]`. -/
def hourOfDay (t : Time) : Int :=
  t.wallSec % 86400 / 3600

/-- `t.Minute()`: minute of the hour in the location of `t`, in `[0, 59]`. -/
def minuteOfHour (t : Time) : Int :=
  t.wallSec % 3600 / 60

/-- Days since 1970-01-01 of the calendar day of `t` in its location. -/
def wallDay (t : Time) : Int :=
  t.wallSec / 86400

/-- `t.Equal(u)`: same instant, whatever the locations. -/
def Equal (t u : Time) : Bool :=
  decide (t.ns = u.ns)

/-- `t.After(u)`. -/
def After (t u : Time) : Bool :=
  decide (u.ns < t.ns)

/-- `t.Before(u)`. -/
def Before (t u : Time) : Bool :=
  decide (t.ns < u.ns)

/-- `t.AddDate(0, 0, days)` for `t` in the location `loc`: `time.Date` of the
date and clock that `t` shows in `loc`, with `days` added to the day of the
month.  The wall clock moves by `days * 24h`; the instant is that wall clock
less the offset `time.Date` finds for it, so across a change of offset the
instant moves by more or less than `days * 24h`.  (The only call site passes
zero years and zero months.) -/
def AddDate (t : Time) (loc : Location) (days : Int) : Time :=
  let sec := t.ns / Second
  let wall := sec + (loc.lookup sec).offset + days * 86400
  let unix := wall - loc.dateOffset wall
  { ns := unix * Second + t.ns % Second, off := (loc.lookup unix).offset }

/-- Month and day of month of the proleptic Gregorian date that lies `z` days
after 1970-01-01. -/
def monthDay (z : Int) : Nat × Nat :=
  let z := z + 719468
  let doe := z % 146097
  let yoe := (doe - doe / 1460 + doe / 36524 - doe / 146096) / 365
  let doy := doe - (365 * yoe + yoe / 4 - yoe / 100)
  let mp := (5 * doy + 2) / 153
  let d := doy - (153 * mp + 2) / 5 + 1
  let m := if mp < 10 then mp + 3 else mp - 9
  (m.toNat, d.toNat)

/-- Two decimal digits, zero padded (layout elements `01`, `02`, `15`, `04`). -/
def pad2 (n : Nat) : String :=
  String.mk [Nat.digitChar (n / 10 % 10), Nat.digitChar (n % 10)]

/-- `t.Format("01/02")`: month and day of month. -/
def Format0102 (t : Time) : String :=
  pad2 (monthDay t.wallDay).1 ++ "/" ++ pad2 (monthDay t.wallDay).2

/-- `t.Format("15:04")`: hour and minute. -/
def Format1504 (t : Time) : String :=
  pad2 t.hourOfDay.toNat ++ ":" ++ pad2 t.minuteOfHour.toNat

end Time

/-! ## `enums.go` -/

/-- `type Lang int`. -/
abbrev Lang := Int

def LangUnknown : Lang := 0
def LangEn : Lang := 1
def LangJa : Lang := 2

/-- The map literal `langs`, in source order. -/
def langs : List (String × Lang) :=
  [("en", LangEn), ("ja", LangJa)]

/-- The loop `for k, v := range m { if v == l { return k } }; return ""` run
over the entries in the order `order`. -/
def rangeValue (order : List (String × Int)) (l : Int) : String :=
  match order with
  | [] => ""
  | (k, v) :: rest => if v == l then k else rangeValue rest l

/-- `Lang.Value`, iterating `langs` in the order `order` (Go leaves the
iteration order of a map unspecified). -/
def Lang.ValueIn (order : List (String × Lang)) (l : Lang) : String :=
  rangeValue order l

/-- `Lang.Value`, iterating in source order. -/
def Lang.Value (l : Lang) : String :=
  Lang.ValueIn langs l

/-- `LangValueOf`. -/
def LangValueOf (str : String) : Lang :=
  match langs.lookup str with
  | some lang => lang
  | none => LangUnknown

/-- `type Units int`. -/
abbrev Units := Int

def UnitsUnknown : Units := 0
def UnitsUS : Units := 1
def UnitsSI : Units := 2

/-- The map literal `unitss`, in source order. -/
def unitss : List (String × Units) :=
  [("us", UnitsUS), ("si", UnitsSI)]

/-- `Units.Value`, iterating `unitss` in the order `order`. -/
def Units.ValueIn (order : List (String × Units)) (u : Units) : String :=
  rangeValue order u

/-- `Units.Value`, iterating in source order. -/
def Units.Value (u : Units) : String :=
  Units.ValueIn unitss u

/-- `UnitsValueOf`. -/
def UnitsValueOf (str : String) : Units :=
  match unitss.lookup str with
  | some units => units
  | none => UnitsUnknown

/-- `type Weather int`. -/
abbrev Weather := Int

def WeatherUnknown : Weather := 0
def WeatherClearDay : Weather := 1
def WeatherClearNight : Weather := 2
def WeatherRain : Weather := 3
def WeatherSnow : Weather := 4
def WeatherSleet : Weather := 5
def WeatherWind : Weather := 6
def WeatherFog : Weather := 7
def WeatherCloudy : Weather := 8
def WeatherPartlyCloudyDay : Weather := 9
def WeatherPartlyCloudyNight : Weather := 10

/-- The map literal `weathers`. -/
def weathers : List (String × Weather) :=
  [("clear-day", WeatherClearDay),
   ("clear-night", WeatherClearNight),
   ("rain", WeatherRain),
   ("snow", WeatherSnow),
   ("sleet", WeatherSleet),
   ("wind", WeatherWind),
   ("fog", WeatherFog),
   ("cloudy", WeatherCloudy),
   ("partly-cloudy-day", WeatherPartlyCloudyDay),
   ("partly-cloudy-night", WeatherPartlyCloudyNight)]

/-! ## Package `encoding/json` -/

/-- A JSON number literal: sign, integer part, optional fraction digits and
optional exponent, as written. -/
structure JNumber where
  neg : Bool
  int : Nat
  frac : Option String
  exp : Option String
  deriving DecidableEq, Repr

/-- A well-formed JSON value. -/
inductive JSON where
  | null : JSON
  | bool (b : Bool) : JSON
  | num (n : JNumber) : JSON
  | str (s : String) : JSON
  | arr (xs : List JSON) : JSON
  | obj (kvs : List (String × JSON)) : JSON

/-- The `*json.UnmarshalTypeError` returned when a JSON value does not fit the
Go target: `Value` describes the JSON value, `GoType` names the Go type. -/
structure UnmarshalTypeError where
  Value : String
  GoType : String
  deriving DecidableEq, Repr

/-- `json.Unmarshal(b, &s)` for `s` of type `string` holding `cur`.  A JSON
string is stored; JSON null has no effect on a non-pointer target and is not an
error; every other value is an `UnmarshalTypeError`. -/
def unmarshalString (b : JSON) (cur : String) : Except UnmarshalTypeError String :=
  match b with
  | .str s => .ok s
  | .null => .ok cur
  | .bool _ => .error ⟨"bool", "string"⟩
  | .num _ => .error ⟨"number", "string"⟩
  | .arr _ => .error ⟨"array", "string"⟩
  | .obj _ => .error ⟨"object", "string"⟩

/-- The value `strconv.ParseInt(lit, 10, 64)` gives for a number literal: only a
literal without fraction and exponent whose value fits `int64` parses. -/
def JNumber.parseInt64 (n : JNumber) : Option Int :=
  let v : Int := if n.neg then -(n.int : Int) else (n.int : Int)
  if n.frac.isNone && n.exp.isNone && decide (-9223372036854775808 ≤ v)
      && decide (v ≤ 9223372036854775807) then
    some v
  else
    none

/-- `json.Unmarshal(b, &n)` for `n` of type `int64` holding `cur`.  A number
literal is stored when `ParseInt` accepts it; JSON null has no effect and is not
an error; every other value is an `UnmarshalTypeError`. -/
def unmarshalInt64 (b : JSON) (cur : Int) : Except UnmarshalTypeError Int :=
  match b with
  | .num n =>
    match n.parseInt64 with
    | some v => .ok v
    | none => .error ⟨"number", "int64"⟩
  | .null => .ok cur
  | .bool _ => .error ⟨"bool", "int64"⟩
  | .str _ => .error ⟨"string", "int64"⟩
  | .arr _ => .error ⟨"array", "int64"⟩
  | .obj _ => .error ⟨"object", "int64"⟩

/-- `Weather.UnmarshalJSON`: the decoded condition, or the decode error. -/
def Weather.UnmarshalJSON (b : JSON) : Except UnmarshalTypeError Weather :=
  match unmarshalString b "" with
  | .error err => .error err
  | .ok s =>
    match weathers.lookup s with
    | some weather => .ok weather
    | none => .ok WeatherUnknown

/-! ## Package `fmt` and `float64` -/

/-- The operations on `float64` the formatter uses, over a carrier `α` of float
values: the product `x * 100`, `fmt.Sprintf("%.0f", x)` and
`fmt.Sprintf("%.1f", x)`.  Floating-point arithmetic and formatting are library
behaviour; the development is parametric in them. -/
structure FloatFmt (α : Type) where
  mul100 : α → α
  sprintf0 : α → String
  sprintf1 : α → String

/-- Decimal digits of `n`, most significant first (`fuel` bounds the number of
digits). -/
def decDigits : Nat → Nat → List Char
  | 0, _ => []
  | fuel + 1, n =>
    if n < 10 then [Nat.digitChar n]
    else decDigits fuel (n / 10) ++ [Nat.digitChar (n % 10)]

/-- A concrete `FloatFmt` for evaluation: decimal fixed point numbers with one
fractional digit, `x` standing for `x / 10`.  `%.1f` prints the value as it is,
`%.0f` rounds half to even. -/
def tenths : FloatFmt Int where
  mul100 := fun x => x * 100
  sprintf0 := fun x =>
    let q := x.natAbs / 10
    let r := x.natAbs % 10
    let n := if 5 < r || (r == 5 && q % 2 == 1) then q + 1 else q
    String.mk ((if x < 0 then [Char.ofNat 45] else []) ++ decDigits 40 n)
  sprintf1 := fun x =>
    String.mk ((if x < 0 then [Char.ofNat 45] else []) ++ decDigits 40 (x.natAbs / 10)
      ++ [Char.ofNat 46, Nat.digitChar (x.natAbs % 10)])

/-! ## `weather.go` -/

/-- `apiTime.UnmarshalJSON`; `localOff` is the offset of the process-local zone
that `time.Unix` attaches. -/
def apiTime.UnmarshalJSON (localOff : Int) (b : JSON) : Except UnmarshalTypeError Time :=
  match unmarshalInt64 b 0 with
  | .error err => .error err
  | .ok unixTime => .ok (Time.Unix localOff unixTime 0)

/-- `type dataPoint struct`; `apiTime` embeds `time.Time` and is modelled by
`Time`, `float64` fields range over `α`. -/
structure dataPoint (α : Type) where
  Weather : Weatherline.Weather
  ApparentTemperature : α
  ApparentTemperatureHigh : α
  ApparentTemperatureHighTime : Weatherline.Time
  ApparentTemperatureLow : α
  ApparentTemperatureLowTime : Weatherline.Time
  PrecipAccumulation : α
  PrecipProbability : α
  Summary : String
  Time : Weatherline.Time
  Temperature : α
  TemperatureHigh : α
  TemperatureHighTime : Weatherline.Time
  TemperatureLow : α
  TemperatureLowTime : Weatherline.Time

/-- `type dataBlock struct`. -/
structure dataBlock (α : Type) where
  Data : List (dataPoint α)
  Icon : Weather
  Summary : String

/-- `type ForecastResponse struct`; the `timeZone` is a `time.Location`. -/
structure ForecastResponse (α : Type) where
  TimeZone : Location
  Hourly : dataBlock α
  Daily : dataBlock α

/-! ## `weatherline/cmd/enums.go` -/

/-- `type icon rune`. -/
abbrev icon := Nat

def iconUnknown : icon := 0x2753
def iconClearDay : icon := 0x2600
def iconClearNight : icon := 0x2600
def iconRain : icon := 0x2603
def iconSnow : icon := 0x2744
def iconSleet : icon := 0x2603
def iconWind : icon := 0x1f343
def iconFog : icon := 0x1f32b
def iconCloudy : icon := 0x2601
def iconPartlyCloudyDay : icon := 0x26c5
def iconPartlyCloudyNight : icon := 0x26c5

/-- The map literal `icons`. -/
def icons : List (Weather × icon) :=
  [(WeatherClearDay, iconClearDay),
   (WeatherClearNight, iconClearNight),
   (WeatherRain, iconRain),
   (WeatherSnow, iconSnow),
   (WeatherSleet, iconSleet),
   (WeatherWind, iconWind),
   (WeatherFog, iconFog),
   (WeatherCloudy, iconCloudy),
   (WeatherPartlyCloudyDay, iconPartlyCloudyDay),
   (WeatherPartlyCloudyNight, iconPartlyCloudyNight)]

/-! ## `weatherline/cmd/root.go` -/

/-- The constant `dateRange`. -/
def dateRange : Int := 3

/-- `truncHour`. -/
def truncHour (t : Time) : Time :=
  (t.Truncate Time.Hour).Add (-t.hourOfDay * Time.Hour)

/-- `buf.WriteRune(rune(ico))`. -/
def writeRune (buf : String) (ico : icon) : String :=
  buf.push (Char.ofNat ico)

/-- The body of the loop of `createHourly` for one data point; `buf` is the
buffer before, the result the buffer after. -/
def createHourlyStep {α : Type} (F : FloatFmt α) (date : Time) (buf : String)
    (point : dataPoint α) : String :=
  let d := truncHour point.Time
  if !d.Equal date then
    buf
  else
    let buf := buf ++ "  "
    let buf := buf ++ point.Time.Format1504
    let buf := buf ++ " "
    let buf :=
      match icons.lookup point.Weather with
      | none => buf ++ point.Summary
      | some ico => writeRune buf ico
    let buf := buf ++ " "
    let buf := buf ++ (F.sprintf1 point.Temperature ++ "℃")
    let buf := buf ++ ("/" ++ F.sprintf1 point.ApparentTemperature ++ "℃")
    let buf := buf ++ " "
    let buf := buf ++ (F.sprintf0 (F.mul100 point.PrecipProbability) ++ "%")
    let buf :=
      if point.Weather == WeatherSnow then
        buf ++ ("/" ++ F.sprintf0 point.PrecipAccumulation ++ "cm")
      else buf
    buf ++ "\n"

/-- `createHourly`. -/
def createHourly {α : Type} (F : FloatFmt α) (date : Time) (f : ForecastResponse α) :
    String :=
  if f.Hourly.Data.length == 0 then ""
  else f.Hourly.Data.foldl (createHourlyStep F date) ""

/-- The body of the loop of `createDaily` for one data point; `toDate` is the
variable `to`, that is `date.AddDate(0, 0, dateRange)`. -/
def createDailyStep {α : Type} (F : FloatFmt α) (date toDate : Time) (buf : String)
    (point : dataPoint α) : String :=
  let d := truncHour point.Time
  if !d.After date || !d.Before toDate && !d.Equal toDate then
    buf
  else
    let buf := buf ++ point.Time.Format0102
    let buf := buf ++ " "
    let buf :=
      match icons.lookup point.Weather with
      | none => buf ++ "??"
      | some ico => writeRune buf ico
    let buf := buf ++ "  "
    let buf := buf ++ (F.sprintf0 (F.mul100 point.PrecipProbability) ++ "%")
    let buf :=
      if point.Weather == WeatherSnow then
        buf ++ ("/" ++ F.sprintf0 point.PrecipAccumulation ++ "cm")
      else buf
    let buf := buf ++ "\n"
    let buf := buf ++ "  "
    let buf := buf ++ (F.sprintf1 point.TemperatureHigh ++ "℃")
    let buf := buf ++ ("/" ++ F.sprintf1 point.ApparentTemperatureHigh ++ "℃")
    let buf := buf ++ ("(" ++ point.ApparentTemperatureHighTime.Format1504 ++ ")")
    let buf := buf ++ "\n"
    let buf := buf ++ "  "
    let buf := buf ++ (F.sprintf1 point.TemperatureLow ++ "℃")
    let buf := buf ++ ("/" ++ F.sprintf1 point.ApparentTemperatureLow ++ "℃")
    let buf := buf ++ ("(" ++ point.ApparentTemperatureLowTime.Format1504 ++ ")")
    let buf := buf ++ "\n"
    buf ++ "\n"

/-- `createDaily`; `loc` is the location of `date`. -/
def createDaily {α : Type} (F : FloatFmt α) (loc : Location) (date : Time)
    (f : ForecastResponse α) : String :=
  if f.Daily.Data.length == 0 then ""
  else
    let toDate := date.AddDate loc dateRange
    f.Daily.Data.foldl (createDailyStep F date toDate) ""

/-- The text `run` passes to `lineNotify.Send`, from the date chosen by the
caller (today or the parsed argument) and the forecast returned by the
provider. -/
def runMessage {α : Type} (F : FloatFmt α) (date : Time) (f : ForecastResponse α) :
    String :=
  let tz := f.TimeZone
  let date := truncHour (date.In tz)
  let buf := ""
  let buf := buf ++ "\n"
  let buf := buf ++ date.Format0102
  let buf := buf ++ "\n"
  let hourly := createHourly F date f
  let buf := if hourly != "" then (buf ++ hourly) ++ "\n" else buf
  let daily := createDaily F tz date f
  let buf := if daily != "" then buf ++ daily else buf
  buf

/-! ## Vocabulary of the statements -/

/-- Concatenation of a list of texts, in order. -/
def concatAll : List String → String
  | [] => ""
  | s :: ss => s ++ concatAll ss

/-- The line feed character. -/
def lf : Char := Char.ofNat 10

/-- Number of line feeds in a text. -/
def newlines (s : String) : Nat :=
  s.data.count lf

/-- The glyph of a condition as a one-character text, or `fallback` when the
condition has no entry in `icons`. -/
def glyphOr (w : Weather) (fallback : String) : String :=
  match icons.lookup w with
  | none => fallback
  | some ico => String.singleton (Char.ofNat ico)

/-- Precipitation probability as a whole-number percentage. -/
def percent {α : Type} (F : FloatFmt α) (p : dataPoint α) : String :=
  F.sprintf0 (F.mul100 p.PrecipProbability) ++ "%"

/-- The accumulation text `/<n>cm`. -/
def accumulation {α : Type} (F : FloatFmt α) (p : dataPoint α) : String :=
  "/" ++ F.sprintf0 p.PrecipAccumulation ++ "cm"

/-- The part of an hourly line in front of the percentage. -/
def hourlyHead {α : Type} (F : FloatFmt α) (p : dataPoint α) : String :=
  "  " ++ p.Time.Format1504 ++ " " ++ glyphOr p.Weather p.Summary ++ " "
    ++ F.sprintf1 p.Temperature ++ "℃" ++ "/" ++ F.sprintf1 p.ApparentTemperature ++ "℃" ++ " "

/-- The line of one hourly data point. -/
def hourlyLine {α : Type} (F : FloatFmt α) (p : dataPoint α) : String :=
  hourlyHead F p ++ percent F p
    ++ (if p.Weather = WeatherSnow then accumulation F p else "") ++ "\n"

/-- The hourly line as the specification words it: the temperature suffix is the
two characters degree sign (U+00B0) and `C`. -/
def hourlyLineDegreeSignC {α : Type} (F : FloatFmt α) (p : dataPoint α) : String :=
  "  " ++ p.Time.Format1504 ++ " " ++ glyphOr p.Weather p.Summary ++ " "
    ++ F.sprintf1 p.Temperature ++ "°C" ++ "/" ++ F.sprintf1 p.ApparentTemperature ++ "°C" ++ " "
    ++ percent F p ++ (if p.Weather = WeatherSnow then accumulation F p else "") ++ "\n"

/-- The part of the first line of a daily block in front of the percentage. -/
def dailyHead {α : Type} (p : dataPoint α) : String :=
  p.Time.Format0102 ++ " " ++ glyphOr p.Weather "??" ++ "  "

/-- Second line of a daily block, without its line feed. -/
def dailyHigh {α : Type} (F : FloatFmt α) (p : dataPoint α) : String :=
  "  " ++ F.sprintf1 p.TemperatureHigh ++ "℃" ++ "/" ++ F.sprintf1 p.ApparentTemperatureHigh
    ++ "℃" ++ "(" ++ p.ApparentTemperatureHighTime.Format1504 ++ ")"

/-- Third line of a daily block, without its line feed. -/
def dailyLow {α : Type} (F : FloatFmt α) (p : dataPoint α) : String :=
  "  " ++ F.sprintf1 p.TemperatureLow ++ "℃" ++ "/" ++ F.sprintf1 p.ApparentTemperatureLow
    ++ "℃" ++ "(" ++ p.ApparentTemperatureLowTime.Format1504 ++ ")"

/-- First line of a daily block, without its line feed. -/
def dailyFirst {α : Type} (F : FloatFmt α) (p : dataPoint α) : String :=
  dailyHead p ++ percent F p ++ (if p.Weather = WeatherSnow then accumulation F p else "")

/-- The block of one daily data point. -/
def dailyBlock {α : Type} (F : FloatFmt α) (p : dataPoint α) : String :=
  dailyFirst F p ++ "\n" ++ dailyHigh F p ++ "\n" ++ dailyLow F p ++ "\n" ++ "\n"

/-- Selection test of `createHourly`: `truncHour` of the point is the instant
`date`. -/
def hourlySelected {α : Type} (date : Time) (p : dataPoint α) : Bool :=
  decide ((truncHour p.Time).ns = date.ns)

/-- The window `date < d <= to` for `d = truncHour(point time)`. -/
def inDailyWindow {α : Type} (date toDate : Time) (p : dataPoint α) : Bool :=
  decide (date.ns < (truncHour p.Time).ns ∧ (truncHour p.Time).ns ≤ toDate.ns)

/-- A location whose offsets differ by less than a day from one another. -/
def Location.boundedShift (loc : Location) : Prop :=
  ∀ s u : Int, (loc.lookup s).offset - (loc.lookup u).offset < 86400

/-- Truncation of an instant to the top of its hour, the selection key the
specification describes for the hourly rendering. -/
def topOfHour (t : Time) : Time :=
  t.Truncate Time.Hour

/-- Two data points that agree in every field except, when the condition is not
Snow, `PrecipAccumulation`. -/
def sameUpToIgnoredAccumulation {α : Type} (p q : dataPoint α) : Prop :=
  q = { p with PrecipAccumulation := q.PrecipAccumulation }
    ∧ (p.Weather = WeatherSnow → q.PrecipAccumulation = p.PrecipAccumulation)

/-- No text produced by the float formatter contains a line feed (Go prints
digits, a sign, a decimal point, `NaN` or `Inf`). -/
def FloatFmt.singleLine {α : Type} (F : FloatFmt α) : Prop :=
  ∀ x, lf ∉ (F.sprintf0 x).data ∧ lf ∉ (F.sprintf1 x).data

/-- The JSON number literal that writes the integer `n`. -/
def JSON.ofInt (n : Int) : JSON :=
  .num { neg := decide (n < 0), int := n.natAbs, frac := none, exp := none }

/-- Whether a JSON value is a string. -/
def JSON.isStr : JSON → Bool
  | .str _ => true
  | _ => false

/-- Whether a JSON value is an integer literal that fits `int64`. -/
def JSON.isInt64 : JSON → Bool
  | .num n => n.parseInt64.isSome
  | _ => false

/-- Whether a JSON value is `null`. -/
def JSON.isNull : JSON → Bool
  | .null => true
  | _ => false

/-! ## Sample data -/

/-- A data point at `sec` seconds after the epoch (zone UTC) with condition `w`:
5.2 degrees, feels like 3.5, probability 0.5, accumulation 5.0, high 12.3 (feels
like 10.1 at 14:00), low -0.5 (feels like -1.2 at 05:07); the float fields hold
tenths, as `tenths` reads them. -/
def samplePoint (w : Weather) (sec : Int) : dataPoint Int where
  Weather := w
  ApparentTemperature := 35
  ApparentTemperatureHigh := 101
  ApparentTemperatureHighTime := Time.Unix 0 (sec + 14 * 3600) 0
  ApparentTemperatureLow := -12
  ApparentTemperatureLowTime := Time.Unix 0 (sec + 5 * 3600 + 420) 0
  PrecipAccumulation := 50
  PrecipProbability := 5
  Summary := "Drizzle"
  Time := Time.Unix 0 sec 0
  Temperature := 52
  TemperatureHigh := 123
  TemperatureHighTime := Time.Unix 0 (sec + 13 * 3600) 0
  TemperatureLow := -5
  TemperatureLowTime := Time.Unix 0 (sec + 4 * 3600) 0

/-- A forecast in zone UTC with the given hourly and daily points. -/
def sampleForecast (hourly daily : List (dataPoint Int)) : ForecastResponse Int where
  TimeZone := Location.fixed 0
  Hourly := { Data := hourly, Icon := WeatherUnknown, Summary := "" }
  Daily := { Data := daily, Icon := WeatherUnknown, Summary := "" }

/-- The instant 2024-01-01T00:00:00 UTC. -/
def jan1 : Int := 1704067200

/-- The reference 2024-01-01T09:00:00 UTC. -/
def ref0900 : Time := Time.Unix 0 (jan1 + 9 * 3600) 0

/-- A snowy point at 2024-01-01T09:30:00 UTC. -/
def point0930 : dataPoint Int := samplePoint WeatherSnow (jan1 + 9 * 3600 + 1800)

/-- A point of unknown condition at 2024-01-01T10:00:00 UTC. -/
def point1000 : dataPoint Int := samplePoint WeatherUnknown (jan1 + 10 * 3600)

/-! ## Package `net/url` -/

/-- A Go string seen as its sequence of bytes (each below 256). -/
abbrev Bytes := List Nat

/-- The UTF-8 bytes of a text. -/
def utf8Bytes (s : String) : Bytes :=
  s.data.flatMap fun c => (String.utf8EncodeChar c).map UInt8.toNat

/-- The escaping modes the program reaches: `encodePath` and `encodeHost`
through `URL.String`, `encodeQueryComponent` through `Values.Encode`. -/
inductive encoding where
  | encodePath : encoding
  | encodeHost : encoding
  | encodeQueryComponent : encoding
  deriving DecidableEq, Repr

/-- `shouldEscape(c, mode)`: letters, digits and `-_.~` are never escaped; a
host also keeps ``!$&'()*+,;=:[]<>"``; the reserved `$&+,/:;=?@` are escaped in
a query component and, of them, only `?` in a path; every other byte is
escaped. -/
def shouldEscape (c : Nat) (mode : encoding) : Bool :=
  if (97 ≤ c ∧ c ≤ 122) ∨ (65 ≤ c ∧ c ≤ 90) ∨ (48 ≤ c ∧ c ≤ 57) then false
  else if mode = .encodeHost ∧ (c = 33 ∨ c = 36 ∨ c = 38 ∨ c = 39 ∨ c = 40 ∨ c = 41
      ∨ c = 42 ∨ c = 43 ∨ c = 44 ∨ c = 59 ∨ c = 61 ∨ c = 58 ∨ c = 91 ∨ c = 93 ∨ c = 60
      ∨ c = 62 ∨ c = 34) then false
  else if c = 45 ∨ c = 95 ∨ c = 46 ∨ c = 126 then false
  else if c = 36 ∨ c = 38 ∨ c = 43 ∨ c = 44 ∨ c = 47 ∨ c = 58 ∨ c = 59 ∨ c = 61
      ∨ c = 63 ∨ c = 64 then
    match mode with
    | .encodePath => c == 63
    | .encodeHost => true
    | .encodeQueryComponent => true
  else true

/-- The table `upperhex` at index `n` (below 16). -/
def upperhex (n : Nat) : Nat :=
  if n < 10 then 48 + n else 55 + n

/-- What `escape` writes for one byte: `+` for a space in a query component,
`%XX` for a byte that is to be escaped, the byte itself otherwise. -/
def escapeByte (mode : encoding) (c : Nat) : Bytes :=
  if c = 32 ∧ mode = .encodeQueryComponent then [43]
  else if shouldEscape c mode then [37, upperhex (c / 16), upperhex (c % 16)]
  else [c]

/-- `escape(s, mode)`. -/
def escape (s : Bytes) (mode : encoding) : Bytes :=
  s.flatMap (escapeByte mode)

/-- `url.QueryEscape`. -/
def QueryEscape (s : Bytes) : Bytes :=
  escape s .encodeQueryComponent

/-- `ishex`. -/
def ishex (c : Nat) : Bool :=
  (48 ≤ c && c ≤ 57) || (97 ≤ c && c ≤ 102) || (65 ≤ c && c ≤ 70)

/-- `unhex`. -/
def unhex (c : Nat) : Nat :=
  if 48 ≤ c ∧ c ≤ 57 then c - 48
  else if 97 ≤ c ∧ c ≤ 102 then c - 97 + 10
  else if 65 ≤ c ∧ c ≤ 70 then c - 65 + 10
  else 0

/-- `url.QueryUnescape`: `%XX` becomes the byte `XX`, `+` a space; a `%` that is
not followed by two hex digits is an error (`none`). -/
def QueryUnescape : Bytes → Option Bytes
  | [] => some []
  | 37 :: a :: b :: rest =>
    if ishex a && ishex b then
      match QueryUnescape rest with
      | some t => some ((unhex a * 16 + unhex b) :: t)
      | none => none
    else none
  | [37] => none
  | [37, _] => none
  | c :: rest =>
    match QueryUnescape rest with
    | some t => some ((if c = 43 then 32 else c) :: t)
    | none => none

/-- A `url.Values` (`map[string][]string`) as an association list with
distinct keys. -/
abbrev Values := List (Bytes × List Bytes)

/-- `v.Set(key, value)`: the entry of `key` becomes the one value. -/
def Values.Set (v : Values) (key value : Bytes) : Values :=
  match v with
  | [] => [(key, [value])]
  | (k, vs) :: rest =>
    if k = key then (k, [value]) :: rest else (k, vs) :: Values.Set rest key value

/-- `v.Add(key, value)`, the map update `m[key] = append(m[key], value)`. -/
def Values.Add (v : Values) (key value : Bytes) : Values :=
  match v with
  | [] => [(key, [value])]
  | (k, vs) :: rest =>
    if k = key then (k, vs ++ [value]) :: rest else (k, vs) :: Values.Add rest key value

/-- The map read `m[key]`, with whether the key is present. -/
def Values.lookup (v : Values) (key : Bytes) : Option (List Bytes) :=
  match v with
  | [] => none
  | (k, vs) :: rest => if k = key then some vs else Values.lookup rest key

/-- Byte-wise lexicographic `a <= b`, the order of `sort.Strings`. -/
def bytesLe : Bytes → Bytes → Bool
  | [], _ => true
  | _ :: _, [] => false
  | a :: s, b :: t => if a < b then true else if b < a then false else bytesLe s t

/-- Insertion of an entry into a list of entries sorted by key. -/
def insertByKey (e : Bytes × List Bytes) : Values → Values
  | [] => [e]
  | x :: rest => if bytesLe e.1 x.1 then e :: x :: rest else x :: insertByKey e rest

/-- The entries in the order of their sorted keys. -/
def sortByKey (v : Values) : Values :=
  v.foldr insertByKey []

/-- `v.Encode()`: for the keys in sorted order and each of their values,
`key=value` with both sides query-escaped, the pairs separated by `&`. -/
def Values.Encode (v : Values) : Bytes :=
  (sortByKey v).foldl
    (fun buf kvs =>
      let keyEscaped := QueryEscape kvs.1
      kvs.2.foldl
        (fun buf value =>
          let buf := if buf.length > 0 then buf ++ [38] else buf
          let buf := buf ++ keyEscaped
          let buf := buf ++ [61]
          buf ++ QueryEscape value)
        buf)
    []

/-- `strings.Cut(s, sep)` for a one-byte separator: the text before the first
`sep`, the text after it, and whether `sep` occurs. -/
def cut (sep : Nat) : Bytes → Bytes × Bytes × Bool
  | [] => ([], [], false)
  | c :: rest =>
    if c = sep then ([], rest, true)
    else
      let r := cut sep rest
      (c :: r.1, r.2.1, r.2.2)

/-- The loop of `parseQuery(m, query)`, at most `fuel` rounds; the result is
the map and whether an error was recorded. -/
def parseQueryLoop : Nat → Values → Bool → Bytes → Values × Bool
  | 0, m, err, _ => (m, err)
  | fuel + 1, m, err, query =>
    if query = [] then (m, err)
    else
      let c := cut 38 query
      let key := c.1
      let query := c.2.1
      if key.contains 59 then parseQueryLoop fuel m true query
      else if key = [] then parseQueryLoop fuel m err query
      else
        let kv := cut 61 key
        match QueryUnescape kv.1 with
        | none => parseQueryLoop fuel m true query
        | some key =>
          match QueryUnescape kv.2.1 with
          | none => parseQueryLoop fuel m true query
          | some value => parseQueryLoop fuel (Values.Add m key value) err query

/-- `url.ParseQuery(query)`: every round of the loop consumes at least one
byte, so `query.length` rounds are enough. -/
def ParseQuery (query : Bytes) : Values × Bool :=
  parseQueryLoop query.length [] false query

/-- A `url.URL` with the fields the program fills: no user, no opaque part,
no raw path, no fragment. -/
structure URL where
  Scheme : Bytes
  Host : Bytes
  Path : Bytes
  RawQuery : Bytes
  deriving DecidableEq, Repr

/-- `u.EscapedPath()` for a URL without raw path. -/
def URL.EscapedPath (u : URL) : Bytes :=
  if u.Path = [42] then [42] else escape u.Path .encodePath

/-- `u.String()`: scheme, `//` and host, the escaped path (with a `/` put in
front of a relative path when there is a host), `?` and the raw query. -/
def URL.String (u : URL) : Bytes :=
  let buf : Bytes := []
  let buf := if u.Scheme ≠ [] then buf ++ u.Scheme ++ [58] else buf
  let buf :=
    if u.Scheme ≠ [] ∨ u.Host ≠ [] then
      let buf := if u.Host ≠ [] ∨ u.Path ≠ [] then buf ++ [47, 47] else buf
      if u.Host ≠ [] then buf ++ escape u.Host .encodeHost else buf
    else buf
  let path := u.EscapedPath
  let buf := if path ≠ [] ∧ path.head? ≠ some 47 ∧ u.Host ≠ [] then buf ++ [47] else buf
  let buf :=
    if buf.length = 0 ∧ ((cut 47 path).1).contains 58 then buf ++ [46, 47] else buf
  let buf := buf ++ path
  if u.RawQuery ≠ [] then buf ++ [63] ++ u.RawQuery else buf

/-! ## Package `path` -/

/-- The pieces of a text between the occurrences of `sep`. -/
def splitOn (sep : Nat) : Bytes → List Bytes
  | [] => [[]]
  | c :: rest =>
    if c = sep then [] :: splitOn sep rest
    else
      match splitOn sep rest with
      | [] => [[c]]
      | h :: t => (c :: h) :: t

/-- The pieces joined with `sep` between them. -/
def joinWith (sep : Nat) : List Bytes → Bytes
  | [] => []
  | [x] => x
  | x :: y :: rest => x ++ sep :: joinWith sep (y :: rest)

/-- One path element met by `path.Clean`, `out` being the elements kept so far:
an empty element and `.` are dropped; `..` removes the element before it when
there is one that is not `..`, is dropped at the root, and is kept otherwise;
any other element is kept. -/
def cleanElem (rooted : Bool) (out : List Bytes) (elem : Bytes) : List Bytes :=
  if elem = [] ∨ elem = [46] then out
  else if elem = [46, 46] then
    match out.getLast? with
    | some last => if last = [46, 46] then out ++ [elem] else out.dropLast
    | none => if rooted then out else out ++ [elem]
  else out ++ [elem]

/-- `path.Clean`, by its documented rules: slashes are merged, `.` elements and
inner `..` elements (with the element before them) are eliminated, `..` at the
root is dropped, and an empty result is `.`. -/
def path.Clean (p : Bytes) : Bytes :=
  if p = [] then [46]
  else
    let rooted := p.head? == some 47
    let out := (splitOn 47 p).foldl (cleanElem rooted) []
    if rooted then 47 :: joinWith 47 out
    else if out = [] then [46]
    else joinWith 47 out

/-- `path.Join`: the elements joined with `/`, starting at the first element
that is not empty, and the result cleaned; no element at all, or only empty
ones, give the empty text. -/
def path.Join (elem : List Bytes) : Bytes :=
  let size := (elem.map List.length).sum
  if size = 0 then []
  else
    let buf := elem.foldl
      (fun (buf : Bytes) e =>
        if buf.length > 0 ∨ e ≠ [] then
          let buf := if buf.length > 0 then buf ++ [47] else buf
          buf ++ e
        else buf)
      []
    path.Clean buf

/-! ## `weather.go` and `line.go`: the clients -/

/-- The constant `forecastAPIBase`. -/
def forecastAPIBase : String := "https://api.darksky.net"

/-- The constant `lineNotifyAPIBase`. -/
def lineNotifyAPIBase : String := "https://notify-api.line.me"

/-- The URL that `url.Parse(forecastAPIBase)` returns (it does not fail). -/
def forecastAPIBaseURL : URL :=
  { Scheme := utf8Bytes "https", Host := utf8Bytes "api.darksky.net", Path := [], RawQuery := [] }

/-- The URL that `url.Parse(lineNotifyAPIBase)` returns (it does not fail). -/
def lineNotifyAPIBaseURL : URL :=
  { Scheme := utf8Bytes "https", Host := utf8Bytes "notify-api.line.me", Path := [],
    RawQuery := [] }

/-- An error of `json.Unmarshal` on a body: a `*json.SyntaxError` or a
`*json.UnmarshalTypeError`. -/
inductive JSONError where
  | syntaxError (msg : String) (offset : Int) : JSONError
  | typeError (e : UnmarshalTypeError) : JSONError
  deriving DecidableEq, Repr

/-- `type forecastError struct`. -/
structure forecastError where
  Code : Int
  Message : String
  deriving DecidableEq, Repr

/-- `type notifyError struct`. -/
structure notifyError where
  Status : Int
  Message : String
  deriving DecidableEq, Repr

/-- An `*http.Response` as the clients read it: the status code and the outcome
of `ioutil.ReadAll(res.Body)` (the body text, or the read error). -/
structure Response where
  StatusCode : Int
  Body : Except String String

/-- The request `lineNotify.Send` builds. -/
structure Request where
  Method : String
  URL : Bytes
  ContentType : String
  Authorization : String
  Body : Bytes
  deriving DecidableEq, Repr

/-- The `error` values the clients return. -/
inductive ClientError where
  | parse (msg : String) : ClientError
  | transport (msg : String) : ClientError
  | read (msg : String) : ClientError
  | decode (e : JSONError) : ClientError
  | forecast (e : forecastError) : ClientError
  | notify (e : notifyError) : ClientError
  deriving DecidableEq, Repr

/-- The outcomes of `json.Unmarshal(body, &x)` for `x` a zero value of the three
target types: the value left in `x` and the error returned.  Decoding is the
work of `encoding/json`; the clients are parametric in it. -/
structure Unmarshal (R : Type) where
  forecastResponse : String → R × Option JSONError
  forecastError : String → forecastError × Option JSONError
  notifyError : String → notifyError × Option JSONError

/-- The variable `excludes`. -/
def excludes : List String :=
  ["currently", "minutely", "alerts", "flags"]

/-- `type forecast struct` (the HTTP client is passed to `Get`). -/
structure forecast where
  url : URL
  deriving DecidableEq, Repr

/-- `NewForecast`; `none` stands for the `nil` returned when the base URL does
not parse. -/
def NewForecast (token lat long : Bytes) : Option forecast :=
  let u := forecastAPIBaseURL
  let u := { u with Path := path.Join [u.Path, utf8Bytes "forecast", token, lat ++ [44] ++ long] }
  some { url := u }

/-- The map `values` that `forecast.Get` fills. -/
def forecast.values (lang : Lang) (units : Units) : Values :=
  let values : Values := []
  let values :=
    if lang != LangUnknown then Values.Set values (utf8Bytes "lang") (utf8Bytes (Lang.Value lang))
    else values
  let values :=
    if units != UnitsUnknown then
      Values.Set values (utf8Bytes "units") (utf8Bytes (Units.Value units))
    else values
  Values.Set values (utf8Bytes "exclude") (utf8Bytes (String.intercalate "," excludes))

/-- The URL `forecast.Get` requests: the client URL with the encoded values as
raw query. -/
def forecast.requestURL (f : forecast) (lang : Lang) (units : Units) : URL :=
  { f.url with RawQuery := Values.Encode (forecast.values lang units) }

/-- `forecast.Get`: `httpGet` is `f.httpClient.Get`; the result is the pair of
the response pointer (`none` for `nil`) and the error (`none` for `nil`). -/
def forecast.Get {R : Type} (U : Unmarshal R) (httpGet : Bytes → Except String Response)
    (f : forecast) (lang : Lang) (units : Units) : Option R × Option ClientError :=
  let u := forecast.requestURL f lang units
  match httpGet u.String with
  | .error err => (none, some (.transport err))
  | .ok res =>
    match res.Body with
    | .error err => (none, some (.read err))
    | .ok body =>
      if res.StatusCode = 200 then
        let r := U.forecastResponse body
        (some r.1, r.2.map ClientError.decode)
      else if res.StatusCode = 400 then
        let e := U.forecastError body
        match e.2 with
        | some err => (none, some (.decode err))
        | none => (none, some (.forecast e.1))
      else
        let e : forecastError := { Code := res.StatusCode, Message := body }
        (none, some (.forecast e))

/-- `type lineNotify struct`; `url` holds the outcome of `url.Parse(n.url)`. -/
structure lineNotify where
  token : String
  url : Except String URL

/-- `NewLineNotify`. -/
def NewLineNotify (token : String) : lineNotify :=
  { token := token, url := .ok lineNotifyAPIBaseURL }

/-- The request `lineNotify.Send` builds for a message, for the parsed URL `u`
of the client. -/
def lineNotify.request (token : String) (u : URL) (msg : Bytes) : Request :=
  let values : Values := []
  let values := Values.Set values (utf8Bytes "message") msg
  let u := { u with Path := path.Join [u.Path, utf8Bytes "api", utf8Bytes "notify"] }
  { Method := "POST"
    URL := u.String
    ContentType := "application/x-www-form-urlencoded"
    Authorization := "Bearer " ++ token
    Body := Values.Encode values }

/-- `lineNotify.Send`: `httpDo` is `n.httpClient.Do`; `none` is the `nil`
error.  `http.NewRequest` is taken to succeed (the method is `POST` and the URL
text comes from a parsed URL), so its error return is left out. -/
def lineNotify.Send {R : Type} (U : Unmarshal R) (httpDo : Request → Except String Response)
    (n : lineNotify) (msg : Bytes) : Option ClientError :=
  match n.url with
  | .error err => some (.parse err)
  | .ok u =>
    let req := lineNotify.request n.token u msg
    match httpDo req with
    | .error err => some (.transport err)
    | .ok res =>
      if res.StatusCode = 200 then none
      else
        match res.Body with
        | .error err => some (.read err)
        | .ok body =>
          let response := U.notifyError body
          match response.2 with
          | some err => some (.decode err)
          | none => some (.notify response.1)

/-! ## `weatherline/cmd/root.go`: configuration -/

/-- `type requiredFlagsNotSetError []string`. -/
abbrev requiredFlagsNotSetError := List String

/-- `checkConfig`; `GetString` is `viper.GetString`, which gives the empty
string for a key without value, and `none` is the `nil` error. -/
def checkConfig (GetString : String → String) : Option requiredFlagsNotSetError :=
  let err : requiredFlagsNotSetError :=
    ["line-token", "forecast-token", "latitude", "longitude"].foldl
      (fun err f => if GetString f = "" then err ++ [f] else err) []
  if err.length > 0 then some err else none

/-- A decoder table for the examples: it gives what `encoding/json` gives on
the two error bodies of the examples (code 400 with message `x`, status 400
with message `bad`) and reports a syntax error on every other body, as
`encoding/json` does on a body that is not JSON. -/
def sampleUnmarshal : Unmarshal (ForecastResponse Int) where
  forecastResponse := fun _ =>
    (sampleForecast [] [], some (.syntaxError "invalid character" 1))
  forecastError := fun body =>
    if body = "\x7b\"code\":400,\"error\":\"x\"\x7d" then
      ({ Code := 400, Message := "x" }, none)
    else ({ Code := 0, Message := "" }, some (.syntaxError "invalid character" 1))
  notifyError := fun body =>
    if body = "\x7b\"status\":400,\"message\":\"bad\"\x7d" then
      ({ Status := 400, Message := "bad" }, none)
    else ({ Status := 0, Message := "" }, some (.syntaxError "invalid character" 1))

/-- A server that answers every request with the given status and body. -/
def sampleServer {Q : Type} (status : Int) (body : String) : Q → Except String Response :=
  fun _ => .ok { StatusCode := status, Body := .ok body }

/-- The client `NewForecast` builds for token `abcde`, latitude `123.45` and
longitude `67.890`. -/
def sampleClient : forecast :=
  { url := { forecastAPIBaseURL with Path := utf8Bytes "forecast/abcde/123.45,67.890" } }

/-- A text whose bytes a URL path keeps as they are and that has no `/`:
letters, digits and ``-_.~$&+,:;=@``. -/
def pathSafe (s : Bytes) : Bool :=
  s.all fun b => b != 47 && !shouldEscape b .encodePath

/-- A path element that `path.Clean` keeps and the path escaping leaves as it
is: not empty, not `.`, not `..`, and `pathSafe`. -/
def plainElem (s : Bytes) : Bool :=
  s != [] && s != [46] && s != [46, 46] && pathSafe s

/-- The parameters of the request of `forecast.Get` as the statement of the
query contract lists them: `exclude` always, `lang` and `units` unless
Unknown. -/
def expectedQuery (lang : Lang) (units : Units) : Values :=
  [(utf8Bytes "exclude", [utf8Bytes "currently,minutely,alerts,flags"])]
    ++ (if lang = LangUnknown then [] else [(utf8Bytes "lang", [utf8Bytes (Lang.Value lang)])])
    ++ (if units = UnitsUnknown then []
        else [(utf8Bytes "units", [utf8Bytes (Units.Value units)])])

/-- The location America/New_York around 2024: five hours west of Greenwich,
four hours west from 2024-03-10T07:00:00 UTC to 2024-11-03T06:00:00 UTC. -/
def newYork : Location :=
  { lookup := fun sec =>
      if sec < 1710054000 then
        { offset := -18000, start := -9223372036854775808, finish := 1710054000 }
      else if sec < 1730613600 then
        { offset := -14400, start := 1710054000, finish := 1730613600 }
      else { offset := -18000, start := 1730613600, finish := 9223372036854775807 } }

/-- The date 2024-11-01T00:00:00 in `newYork` (04:00:00 UTC). -/
def nov1NewYork : Time := Time.Unix (-14400) 1730433600 0

/-- A rainy daily point at 2024-11-04T00:00:00 in `newYork` (05:00:00 UTC), 73
hours after `nov1NewYork`. -/
def nov4Point : dataPoint Int :=
  { samplePoint WeatherRain 1730696400 with Time := Time.Unix (-18000) 1730696400 0 }

/-- The instant 2024-01-01T09:10:00 in a zone five and a half hours east of
Greenwich (03:40:00 UTC). -/
def halfHourInstant : Time := Time.Unix 19800 (jan1 + 3 * 3600 + 2400) 0

/-- The reference 2024-01-01T09:00:00 in a zone nine hours east of Greenwich
(00:00:00 UTC). -/
def tokyoReference : Time := Time.Unix 32400 jan1 0

/-- A rainy hourly point at 2024-01-01T03:00:00 UTC (noon of January 1 nine
hours east of Greenwich), its time decoded by a process whose local zone has
the offset `localOff`. -/
def noonPoint (localOff : Int) : dataPoint Int :=
  { samplePoint WeatherRain (jan1 + 3 * 3600) with Time := Time.Unix localOff (jan1 + 3 * 3600) 0 }

/-! ## Buffer lemmas -/

theorem writeRune_eq (buf : String) (ico : icon) :
    writeRune buf ico = buf ++ String.singleton (Char.ofNat ico) := by
  apply String.ext
  simp [writeRune, String.singleton_eq]

theorem foldl_append_pieces {β : Type} (step : String → β → String) (piece : β → String)
    (h : ∀ buf x, step buf x = buf ++ piece x) (xs : List β) (buf : String) :
    xs.foldl step buf = buf ++ concatAll (xs.map piece) := by
  induction xs generalizing buf with
  | nil => simp [concatAll]
  | cons x xs ih => simp [List.foldl, ih, h, concatAll, String.append_assoc]

theorem concatAll_map_select {β : Type} (sel : β → Bool) (g : β → String) (xs : List β) :
    concatAll (xs.map fun x => if sel x then g x else "") = concatAll ((xs.filter sel).map g) := by
  induction xs with
  | nil => simp [concatAll]
  | cons x xs ih =>
    by_cases hx : sel x = true
    · simp [List.filter, hx, concatAll, ih]
    · simp [List.filter, hx, concatAll, ih]

theorem newlines_append (s t : String) : newlines (s ++ t) = newlines s + newlines t := by
  simp [newlines]

theorem createHourlyStep_eq {α : Type} (F : FloatFmt α) (date : Time) (buf : String)
    (p : dataPoint α) :
    createHourlyStep F date buf p
      = buf ++ (if hourlySelected date p then hourlyLine F p else "") := by
  unfold createHourlyStep hourlySelected hourlyLine hourlyHead percent accumulation glyphOr
  by_cases hsel : (truncHour p.Time).ns = date.ns
  · apply String.ext
    by_cases hsnow : p.Weather = WeatherSnow
    · cases hico : icons.lookup p.Weather <;>
        simp [Time.Equal, hsel, hsnow, hico, writeRune_eq]
    · cases hico : icons.lookup p.Weather <;>
        simp [Time.Equal, hsel, hsnow, hico, writeRune_eq]
  · simp [Time.Equal, hsel]

theorem createHourly_eq_lines {α : Type} (F : FloatFmt α) (date : Time)
    (f : ForecastResponse α) :
    createHourly F date f
      = concatAll ((f.Hourly.Data.filter (hourlySelected date)).map (hourlyLine F)) := by
  unfold createHourly
  by_cases hlen : f.Hourly.Data.length = 0
  · have hnil : f.Hourly.Data = [] := List.length_eq_zero.mp hlen
    simp [hnil, concatAll]
  · rw [foldl_append_pieces _ _ (createHourlyStep_eq F date), concatAll_map_select]
    simp [hlen]

theorem dailySkip_eq (d date toDate : Time) :
    (!d.After date || !d.Before toDate && !d.Equal toDate)
      = !decide (date.ns < d.ns ∧ d.ns ≤ toDate.ns) := by
  simp only [Time.After, Time.Before, Time.Equal]
  by_cases h1 : date.ns < d.ns <;> by_cases h2 : d.ns < toDate.ns <;>
    by_cases h3 : d.ns = toDate.ns <;> simp [h1, h2, h3] <;> omega

theorem createDailyStep_eq {α : Type} (F : FloatFmt α) (date toDate : Time) (buf : String)
    (p : dataPoint α) :
    createDailyStep F date toDate buf p
      = buf ++ (if decide (date.ns < (truncHour p.Time).ns ∧ (truncHour p.Time).ns ≤ toDate.ns)
          then dailyBlock F p else "") := by
  unfold createDailyStep
  simp only [dailySkip_eq]
  unfold dailyBlock dailyFirst dailyHead dailyHigh dailyLow percent accumulation glyphOr
  by_cases hwin : date.ns < (truncHour p.Time).ns ∧ (truncHour p.Time).ns ≤ toDate.ns
  · apply String.ext
    by_cases hsnow : p.Weather = WeatherSnow
    · cases hico : icons.lookup p.Weather <;>
        simp [hwin, hsnow, hico, writeRune_eq]
    · cases hico : icons.lookup p.Weather <;>
        simp [hwin, hsnow, hico, writeRune_eq]
  · simp [hwin]

theorem dateOffset_is_lookup (loc : Location) (unix : Int) :
    ∃ s, loc.dateOffset unix = (loc.lookup s).offset := by
  unfold Location.dateOffset
  by_cases h0 : (loc.lookup unix).offset = 0
  · exact ⟨unix, by simp [h0]⟩
  · by_cases h1 : unix - (loc.lookup unix).offset < (loc.lookup unix).start
        ∨ unix - (loc.lookup unix).offset ≥ (loc.lookup unix).finish
    · exact ⟨unix - (loc.lookup unix).offset, by simp [h0, h1]⟩
    · exact ⟨unix, by simp [h0, h1]⟩

theorem addDate_ns (t : Time) (loc : Location) (days : Int) :
    (t.AddDate loc days).ns
      = (t.ns / 1000000000 + (loc.lookup (t.ns / 1000000000)).offset + days * 86400
          - loc.dateOffset
              (t.ns / 1000000000 + (loc.lookup (t.ns / 1000000000)).offset + days * 86400))
          * 1000000000 + t.ns % 1000000000 := by
  simp only [Time.AddDate, Time.Second]

theorem addDate_fixed_ns (t : Time) (offset days : Int) :
    (t.AddDate (Location.fixed offset) days).ns = t.ns + days * 24 * Time.Hour := by
  have hoff : ∀ unix, (Location.fixed offset).dateOffset unix = offset := by
    intro unix
    by_cases h0 : offset = 0
    · simp [Location.dateOffset, Location.fixed, h0]
    · simp [Location.dateOffset, Location.fixed, h0]
  rw [addDate_ns, hoff]
  simp only [Location.fixed, Time.Hour, Time.Second]
  omega

theorem addDate_increasing (loc : Location) (hloc : loc.boundedShift) (t : Time) :
    t.ns < (t.AddDate loc 3).ns ∧ (t.AddDate loc 3).ns < (t.AddDate loc 4).ns := by
  obtain ⟨s3, h3⟩ := dateOffset_is_lookup loc
    (t.ns / 1000000000 + (loc.lookup (t.ns / 1000000000)).offset + 3 * 86400)
  obtain ⟨s4, h4⟩ := dateOffset_is_lookup loc
    (t.ns / 1000000000 + (loc.lookup (t.ns / 1000000000)).offset + 4 * 86400)
  have hb3 := hloc s3 (t.ns / 1000000000)
  have hb4 := hloc s4 s3
  rw [addDate_ns, addDate_ns, h3, h4]
  constructor <;> omega

theorem createDaily_eq_blocks {α : Type} (F : FloatFmt α) (loc : Location) (date : Time)
    (f : ForecastResponse α) :
    createDaily F loc date f
      = concatAll ((f.Daily.Data.filter
          (inDailyWindow date (date.AddDate loc dateRange))).map (dailyBlock F)) := by
  unfold createDaily
  by_cases hlen : f.Daily.Data.length = 0
  · have hnil : f.Daily.Data = [] := List.length_eq_zero.mp hlen
    simp [hnil, concatAll]
  · simp only [beq_iff_eq, hlen, if_false]
    rw [foldl_append_pieces _ _ (createDailyStep_eq F date (date.AddDate loc dateRange)),
      concatAll_map_select]
    have hsel : (fun x : dataPoint α => decide (date.ns < (truncHour x.Time).ns
        ∧ (truncHour x.Time).ns ≤ (date.AddDate loc dateRange).ns))
        = inDailyWindow date (date.AddDate loc dateRange) := by
      funext x
      simp [inDailyWindow]
    rw [hsel, String.empty_append]

/-! ## `truncHour` arithmetic -/

theorem truncHour_ns (t : Time) :
    (truncHour t).ns
      = t.ns - t.ns % 3600000000000
          - (t.ns / 1000000000 + t.off) % 86400 / 3600 * 3600000000000 := by
  simp only [truncHour, Time.Truncate, Time.Add, Time.Hour, Time.Second, Time.unixToInternal,
    Time.hourOfDay, Time.wallSec]
  norm_num
  omega

theorem truncHour_ns_of_whole_hour_offset (t : Time) (h : t.off % 3600 = 0) :
    (truncHour t).ns = (t.wallDay * 86400 - t.off) * 1000000000 := by
  rw [truncHour_ns]
  simp only [Time.wallDay, Time.wallSec, Time.Second]
  omega

theorem hourlyLine_ne_empty {α : Type} (F : FloatFmt α) (p : dataPoint α) :
    hourlyLine F p ≠ "" := by
  intro h
  have hlen := congrArg String.length h
  simp only [hourlyLine, String.length_append] at hlen
  have hlf : "\n".length = 1 := by decide
  have hzero : "".length = 0 := by decide
  omega

/-! ## Independence and line-count lemmas -/

theorem concatAll_filter_map_congr {β : Type} (R : β → β → Prop) (sel : β → Bool)
    (g : β → String) (hR : ∀ p q, R p q → sel p = sel q ∧ g p = g q) (xs ys : List β)
    (h : List.Forall₂ R xs ys) :
    concatAll ((xs.filter sel).map g) = concatAll ((ys.filter sel).map g) := by
  induction h with
  | nil => rfl
  | cons hpq _ ih =>
    obtain ⟨hs, hg⟩ := hR _ _ hpq
    rw [← concatAll_map_select, ← concatAll_map_select] at ih ⊢
    simp only [List.map, concatAll, hs, hg, ih]

theorem sameUpToIgnoredAccumulation_hourly {α : Type} (F : FloatFmt α) (date : Time)
    (p q : dataPoint α) (h : sameUpToIgnoredAccumulation p q) :
    hourlySelected date p = hourlySelected date q ∧ hourlyLine F p = hourlyLine F q := by
  obtain ⟨hq, hacc⟩ := h
  have hT : q.Time = p.Time := by rw [hq]
  have hW : q.Weather = p.Weather := by rw [hq]
  have hS : q.Summary = p.Summary := by rw [hq]
  have h1 : q.Temperature = p.Temperature := by rw [hq]
  have h2 : q.ApparentTemperature = p.ApparentTemperature := by rw [hq]
  have h3 : q.PrecipProbability = p.PrecipProbability := by rw [hq]
  refine ⟨by simp [hourlySelected, hT], ?_⟩
  by_cases hsnow : p.Weather = WeatherSnow
  · simp [hourlyLine, hourlyHead, percent, accumulation, hT, hW, hS, h1, h2, h3, hacc hsnow]
  · simp [hourlyLine, hourlyHead, percent, hT, hW, hS, h1, h2, h3, hsnow]

theorem sameUpToIgnoredAccumulation_daily {α : Type} (F : FloatFmt α) (date toDate : Time)
    (p q : dataPoint α) (h : sameUpToIgnoredAccumulation p q) :
    inDailyWindow date toDate p = inDailyWindow date toDate q
      ∧ dailyBlock F p = dailyBlock F q := by
  obtain ⟨hq, hacc⟩ := h
  have hT : q.Time = p.Time := by rw [hq]
  have hW : q.Weather = p.Weather := by rw [hq]
  have h1 : q.TemperatureHigh = p.TemperatureHigh := by rw [hq]
  have h2 : q.ApparentTemperatureHigh = p.ApparentTemperatureHigh := by rw [hq]
  have h3 : q.PrecipProbability = p.PrecipProbability := by rw [hq]
  have h4 : q.TemperatureLow = p.TemperatureLow := by rw [hq]
  have h5 : q.ApparentTemperatureLow = p.ApparentTemperatureLow := by rw [hq]
  have h6 : q.ApparentTemperatureHighTime = p.ApparentTemperatureHighTime := by rw [hq]
  have h7 : q.ApparentTemperatureLowTime = p.ApparentTemperatureLowTime := by rw [hq]
  refine ⟨by simp [inDailyWindow, hT], ?_⟩
  by_cases hsnow : p.Weather = WeatherSnow
  · simp [dailyBlock, dailyFirst, dailyHead, dailyHigh, dailyLow, percent, accumulation,
      hT, hW, h1, h2, h3, h4, h5, h6, h7, hacc hsnow]
  · simp [dailyBlock, dailyFirst, dailyHead, dailyHigh, dailyLow, percent,
      hT, hW, h1, h2, h3, h4, h5, h6, h7, hsnow]

theorem digitChar_ne_lf (n : Nat) (h : n < 10) : Nat.digitChar n ≠ lf := by
  interval_cases n <;> decide

theorem newlines_eq_zero_iff (s : String) : newlines s = 0 ↔ lf ∉ s.data := by
  simp [newlines, List.count_eq_zero]

theorem newlines_pad2 (n : Nat) : newlines (Time.pad2 n) = 0 := by
  rw [newlines_eq_zero_iff]
  simp only [Time.pad2, List.mem_cons, List.mem_nil_iff, or_false, not_or]
  exact ⟨fun h => digitChar_ne_lf _ (Nat.mod_lt _ (by decide)) h.symm,
    fun h => digitChar_ne_lf _ (Nat.mod_lt _ (by decide)) h.symm⟩

theorem newlines_Format0102 (t : Time) : newlines t.Format0102 = 0 := by
  have h : newlines "/" = 0 := by decide
  simp [Time.Format0102, newlines_append, newlines_pad2, h]

theorem newlines_Format1504 (t : Time) : newlines t.Format1504 = 0 := by
  have h : newlines ":" = 0 := by decide
  simp [Time.Format1504, newlines_append, newlines_pad2, h]

theorem lookup_mem_values {β γ : Type} [BEq β] (xs : List (β × γ)) (k : β) (v : γ)
    (h : xs.lookup k = some v) : v ∈ xs.map Prod.snd := by
  induction xs with
  | nil => simp [List.lookup] at h
  | cons x xs ih =>
    obtain ⟨a, b⟩ := x
    simp only [List.lookup] at h
    cases hk : (k == a) with
    | true =>
      rw [hk] at h
      simp only [Option.some.injEq] at h
      simp [h]
    | false =>
      rw [hk] at h
      simp [ih h]

theorem newlines_glyphOr_unknown (w : Weather) : newlines (glyphOr w "??") = 0 := by
  unfold glyphOr
  cases hico : icons.lookup w with
  | none => decide
  | some ico =>
    have hmem := lookup_mem_values icons w ico hico
    have hall : ∀ v ∈ icons.map Prod.snd, newlines (String.singleton (Char.ofNat v)) = 0 := by
      decide
    exact hall ico hmem

theorem newlines_dailyBlock {α : Type} (F : FloatFmt α) (hF : F.singleLine) (p : dataPoint α) :
    newlines (dailyFirst F p) = 0 ∧ newlines (dailyHigh F p) = 0
      ∧ newlines (dailyLow F p) = 0 := by
  have h0 : ∀ x, newlines (F.sprintf0 x) = 0 := fun x =>
    (newlines_eq_zero_iff _).mpr (hF x).1
  have h1 : ∀ x, newlines (F.sprintf1 x) = 0 := fun x =>
    (newlines_eq_zero_iff _).mpr (hF x).2
  have e1 : newlines " " = 0 := by decide
  have e2 : newlines "  " = 0 := by decide
  have e3 : newlines "%" = 0 := by decide
  have e4 : newlines "/" = 0 := by decide
  have e5 : newlines "cm" = 0 := by decide
  have e6 : newlines "℃" = 0 := by decide
  have e7 : newlines "(" = 0 := by decide
  have e8 : newlines ")" = 0 := by decide
  have e9 : newlines "" = 0 := by decide
  refine ⟨?_, ?_, ?_⟩
  · by_cases hsnow : p.Weather = WeatherSnow
    · simp only [dailyFirst, dailyHead, percent, accumulation, hsnow, if_true, newlines_append,
        newlines_Format0102, newlines_glyphOr_unknown, h0, e1, e2, e3, e4, e5]
    · simp only [dailyFirst, dailyHead, percent, hsnow, if_false, newlines_append,
        newlines_Format0102, newlines_glyphOr_unknown, h0, e1, e2, e3, e9]
  · simp only [dailyHigh, newlines_append, newlines_Format1504, h1, e2, e4, e6, e7, e8]
  · simp only [dailyLow, newlines_append, newlines_Format1504, h1, e2, e4, e6, e7, e8]

theorem newlines_concatAll_map {β : Type} (g : β → String) (k : Nat)
    (hg : ∀ x, newlines (g x) = k) (xs : List β) :
    newlines (concatAll (xs.map g)) = k * xs.length := by
  induction xs with
  | nil => simp [concatAll, newlines]
  | cons x xs ih =>
    simp only [List.map, concatAll, newlines_append, hg, ih, List.length_cons]
    rw [Nat.mul_succ, Nat.add_comm]

theorem lf_not_mem_decDigits (fuel n : Nat) : lf ∉ decDigits fuel n := by
  induction fuel generalizing n with
  | zero => simp [decDigits]
  | succ fuel ih =>
    unfold decDigits
    split_ifs with hn
    · simp only [List.mem_singleton]
      exact fun h => digitChar_ne_lf _ hn h.symm
    · simp only [List.mem_append, List.mem_singleton, not_or]
      exact ⟨ih _, fun h => digitChar_ne_lf _ (Nat.mod_lt _ (by decide)) h.symm⟩

theorem tenths_singleLine : tenths.singleLine := by
  intro x
  have hminus : lf ≠ Char.ofNat 45 := by decide
  have hdot : lf ≠ Char.ofNat 46 := by decide
  constructor
  · simp only [tenths, List.mem_append, not_or]
    refine ⟨?_, lf_not_mem_decDigits _ _⟩
    split_ifs
    · simpa using hminus
    · simp
  · simp only [tenths, List.mem_append, List.mem_cons, List.mem_nil_iff, or_false, not_or]
    refine ⟨⟨?_, lf_not_mem_decDigits _ _⟩, hdot,
      fun h => digitChar_ne_lf _ (Nat.mod_lt _ (by decide)) h.symm⟩
    split_ifs
    · simpa using hminus
    · simp

/-! ## Hourly selection -/

/-- C1, as stated, fails: with the reference 2024-01-01T09:00:00 (UTC) the hourly
rendering prints a line for the point at 10:00:00 of that day as well as for the
point at 09:30:00, although the top of the hour of the 10:00:00 point differs
from the top of the hour of the reference. -/
theorem createHourly_top_of_hour_counterexample :
    createHourly tenths (truncHour ref0900) (sampleForecast [point0930, point1000] [])
        = "  09:30 ❄ 5.2℃/3.5℃ 50%/5cm\n  10:00 Drizzle 5.2℃/3.5℃ 50%\n"
      ∧ (topOfHour point1000.Time).Equal (topOfHour ref0900) = false := by
  decide

/-- C1, amended: for every reference instant and every hourly data list,
`createHourly` applied to `truncHour` of the reference prints exactly the lines
of the points whose `truncHour` is the same instant as the `truncHour` of the
reference, in input order, and every such line is non-empty.  `truncHour` takes
off the hour of the day as well: for a point and a reference in one zone whose
offset is a whole number of hours the test holds exactly when both lie on the
same calendar day of that zone. -/
theorem createHourly_selects_by_truncHour {α : Type} (F : FloatFmt α) (ref : Time)
    (f : ForecastResponse α) :
    createHourly F (truncHour ref) f
        = concatAll ((f.Hourly.Data.filter fun p =>
            decide ((truncHour p.Time).ns = (truncHour ref).ns)).map (hourlyLine F))
      ∧ (∀ p : dataPoint α, hourlyLine F p ≠ "")
      ∧ (∀ p : dataPoint α, p.Time.off = ref.off → ref.off % 3600 = 0 →
          ((truncHour p.Time).ns = (truncHour ref).ns ↔ p.Time.wallDay = ref.wallDay)) := by
  refine ⟨createHourly_eq_lines F (truncHour ref) f, hourlyLine_ne_empty F, ?_⟩
  intro p hoff hwhole
  have hp : p.Time.off % 3600 = 0 := by rw [hoff]; exact hwhole
  rw [truncHour_ns_of_whole_hour_offset _ hp, truncHour_ns_of_whole_hour_offset _ hwhole, hoff]
  constructor
  · intro h
    omega
  · intro h
    rw [h]

/-- Witness for C1 (amended): the point at 10:00:00 passes the selection test of
the reference 09:00:00 of the same day. -/
theorem createHourly_selects_by_truncHour_witness :
    (truncHour point1000.Time).ns = (truncHour ref0900).ns :=
  ((createHourly_selects_by_truncHour tenths ref0900 (sampleForecast [point1000] [])).2.2
    point1000 (by decide) (by decide)).mpr (by decide)

/-! ## Daily window -/

/-- C2: `createDaily` prints exactly the blocks of the points whose
`d = truncHour(point time)` satisfies `date < d` and `d <= to`, in input order,
where `to = date.AddDate(0, 0, 3)` is `date` plus three calendar days in the
location of `date`; the skip condition of the source is the negation of
`date < d <= to`; a point whose `d` is `date` is skipped, one whose `d` is
`date` plus three days is printed, one whose `d` is `date` plus four days is
skipped (the calendar days being in order: `date < date + 3 days < date + 4
days`, which holds in every location whose offsets differ by less than a day;
in a location with one offset `to` is 72 hours after `date`). -/
theorem createDaily_window {α : Type} (F : FloatFmt α) (loc : Location) (date : Time)
    (f : ForecastResponse α) :
    createDaily F loc date f
        = concatAll ((f.Daily.Data.filter fun p =>
            decide (date.ns < (truncHour p.Time).ns
              ∧ (truncHour p.Time).ns ≤ (date.AddDate loc dateRange).ns)).map (dailyBlock F))
      ∧ (∀ d toDate : Time,
          (!d.After date || !d.Before toDate && !d.Equal toDate)
            = !decide (date.ns < d.ns ∧ d.ns ≤ toDate.ns))
      ∧ (∀ (buf : String) (p : dataPoint α), (truncHour p.Time).ns = date.ns →
          createDailyStep F date (date.AddDate loc dateRange) buf p = buf)
      ∧ (date.ns < (date.AddDate loc 3).ns → ∀ (buf : String) (p : dataPoint α),
          (truncHour p.Time).ns = (date.AddDate loc 3).ns →
          createDailyStep F date (date.AddDate loc dateRange) buf p = buf ++ dailyBlock F p)
      ∧ ((date.AddDate loc 3).ns < (date.AddDate loc 4).ns →
          ∀ (buf : String) (p : dataPoint α),
          (truncHour p.Time).ns = (date.AddDate loc 4).ns →
          createDailyStep F date (date.AddDate loc dateRange) buf p = buf)
      ∧ (loc.boundedShift →
          date.ns < (date.AddDate loc 3).ns ∧ (date.AddDate loc 3).ns < (date.AddDate loc 4).ns)
      ∧ (∀ offset : Int,
          (date.AddDate (Location.fixed offset) dateRange).ns
            = date.ns + 3 * (24 * Time.Hour)) := by
  have hrange : dateRange = 3 := rfl
  refine ⟨?_, fun d toDate => dailySkip_eq d date toDate, ?_, ?_, ?_,
    fun hloc => addDate_increasing loc hloc date, ?_⟩
  · rw [createDaily_eq_blocks]
    rfl
  · intro buf p hp
    rw [createDailyStep_eq, hp]
    simp
  · intro hinc buf p hp
    rw [createDailyStep_eq, hrange, hp]
    have hwin : date.ns < (date.AddDate loc 3).ns
        ∧ (date.AddDate loc 3).ns ≤ (date.AddDate loc 3).ns := ⟨hinc, le_refl _⟩
    rw [decide_eq_true hwin]
    simp
  · intro hinc buf p hp
    rw [createDailyStep_eq, hrange, hp]
    have hwin : ¬ (date.ns < (date.AddDate loc 4).ns
        ∧ (date.AddDate loc 4).ns ≤ (date.AddDate loc 3).ns) := by
      intro h
      exact absurd h.2 (not_le.mpr hinc)
    rw [decide_eq_false hwin]
    simp
  · intro offset
    rw [hrange, addDate_fixed_ns]
    simp only [Int.mul_assoc]

theorem newYork_boundedShift : newYork.boundedShift := by
  intro s u
  simp only [newYork]
  split_ifs <;> decide

/-- Witness for C2: for the date 2024-11-01T00:00:00 in New York, where the
clocks go back on November 3, the point of 2024-11-04T00:00:00 there, 73 hours
later, is printed. -/
theorem createDaily_window_witness :
    createDailyStep tenths nov1NewYork (nov1NewYork.AddDate newYork dateRange) "" nov4Point
      = "" ++ dailyBlock tenths nov4Point :=
  (createDaily_window tenths newYork nov1NewYork (sampleForecast [] [])).2.2.2.1
    ((createDaily_window tenths newYork nov1NewYork (sampleForecast [] [])).2.2.2.2.2.1
      newYork_boundedShift).1 "" nov4Point (by decide)

/-! ## The message of `run` -/

/-- C3: for every date and forecast, the text `run` sends is a line feed, the
`MM/DD` of the reference date (the date moved to the forecast zone and passed
through `truncHour`), a line feed, then the hourly text followed by one more
line feed exactly when the hourly text is non-empty, then the daily text; when
both texts are empty it is the line feed, `MM/DD` and a line feed. -/
theorem runMessage_layout {α : Type} (F : FloatFmt α) (date : Time)
    (f : ForecastResponse α) :
    runMessage F date f
        = "\n" ++ (truncHour (date.In f.TimeZone)).Format0102 ++ "\n"
            ++ (if createHourly F (truncHour (date.In f.TimeZone)) f = "" then ""
                else createHourly F (truncHour (date.In f.TimeZone)) f ++ "\n")
            ++ createDaily F f.TimeZone (truncHour (date.In f.TimeZone)) f
      ∧ (createHourly F (truncHour (date.In f.TimeZone)) f = "" →
          createDaily F f.TimeZone (truncHour (date.In f.TimeZone)) f = "" →
          runMessage F date f
            = "\n" ++ (truncHour (date.In f.TimeZone)).Format0102 ++ "\n") := by
  have hmain : runMessage F date f
      = "\n" ++ (truncHour (date.In f.TimeZone)).Format0102 ++ "\n"
          ++ (if createHourly F (truncHour (date.In f.TimeZone)) f = "" then ""
              else createHourly F (truncHour (date.In f.TimeZone)) f ++ "\n")
          ++ createDaily F f.TimeZone (truncHour (date.In f.TimeZone)) f := by
    unfold runMessage
    by_cases hh : createHourly F (truncHour (date.In f.TimeZone)) f = ""
    · by_cases hd : createDaily F f.TimeZone (truncHour (date.In f.TimeZone)) f = ""
      · simp [hh, hd]
      · simp [hh, hd]
    · by_cases hd : createDaily F f.TimeZone (truncHour (date.In f.TimeZone)) f = ""
      · simp [hh, hd, String.append_assoc]
      · simp [hh, hd, String.append_assoc]
  refine ⟨hmain, ?_⟩
  intro hh hd
  rw [hmain, hh, hd]
  simp

/-- Witness for C3: without data the message for 2024-01-01T09:00:00 (UTC) is
the header alone. -/
theorem runMessage_layout_witness :
    runMessage tenths ref0900 (sampleForecast [] [])
      = "\n" ++ (truncHour (ref0900.In (Location.fixed 0))).Format0102 ++ "\n" :=
  (runMessage_layout tenths ref0900 (sampleForecast [] [])).2 (by decide) (by decide)

/-! ## Accumulation text -/

/-- C4: in `createHourly` and in `createDaily`, what is written for a selected
point has `/` + accumulation (zero decimals) + `cm` right after the percentage
when the condition is Snow and nothing between the percentage and the line feed
otherwise; and two forecasts whose points differ only in `PrecipAccumulation` of
points that are not Snow render identically, hourly and daily. -/
theorem accumulation_iff_snow {α : Type} (F : FloatFmt α) (loc : Location) (date : Time) :
    (∀ (buf : String) (p : dataPoint α), (truncHour p.Time).Equal date = true →
        createHourlyStep F date buf p
          = buf ++ (hourlyHead F p ++ percent F p
              ++ (if p.Weather = WeatherSnow
                  then "/" ++ F.sprintf0 p.PrecipAccumulation ++ "cm" else "")
              ++ "\n"))
      ∧ (∀ (buf : String) (p : dataPoint α),
        inDailyWindow date (date.AddDate loc dateRange) p = true →
        createDailyStep F date (date.AddDate loc dateRange) buf p
          = buf ++ (dailyHead p ++ percent F p
              ++ (if p.Weather = WeatherSnow
                  then "/" ++ F.sprintf0 p.PrecipAccumulation ++ "cm" else "")
              ++ "\n" ++ dailyHigh F p ++ "\n" ++ dailyLow F p ++ "\n" ++ "\n"))
      ∧ (∀ f g : ForecastResponse α,
          List.Forall₂ sameUpToIgnoredAccumulation f.Hourly.Data g.Hourly.Data →
          createHourly F date f = createHourly F date g)
      ∧ (∀ f g : ForecastResponse α,
          List.Forall₂ sameUpToIgnoredAccumulation f.Daily.Data g.Daily.Data →
          createDaily F loc date f = createDaily F loc date g) := by
  refine ⟨?_, ?_, ?_, ?_⟩
  · intro buf p hsel
    have hsel2 : hourlySelected date p = true := by
      simpa [hourlySelected, Time.Equal] using hsel
    rw [createHourlyStep_eq, hsel2]
    simp only [if_true, hourlyLine, accumulation]
  · intro buf p hwin
    rw [createDailyStep_eq]
    have hwin2 : decide (date.ns < (truncHour p.Time).ns
        ∧ (truncHour p.Time).ns ≤ (date.AddDate loc dateRange).ns) = true := by
      simpa [inDailyWindow] using hwin
    rw [hwin2]
    simp only [if_true, dailyBlock, dailyFirst, accumulation]
  · intro f g h
    rw [createHourly_eq_lines, createHourly_eq_lines]
    exact concatAll_filter_map_congr _ _ _
      (fun p q hpq => sameUpToIgnoredAccumulation_hourly F date p q hpq) _ _ h
  · intro f g h
    rw [createDaily_eq_blocks, createDaily_eq_blocks]
    exact concatAll_filter_map_congr _ _ _
      (fun p q hpq => sameUpToIgnoredAccumulation_daily F date _ p q hpq) _ _ h

/-- Witness for C4: the 10:00:00 point of unknown condition renders the same
hourly text with accumulation 5.0 and with accumulation 99.0. -/
theorem accumulation_iff_snow_witness :
    createHourly tenths (truncHour ref0900) (sampleForecast [point1000] [])
      = createHourly tenths (truncHour ref0900)
          (sampleForecast [{ point1000 with PrecipAccumulation := 990 }] []) :=
  (accumulation_iff_snow tenths (Location.fixed 0) (truncHour ref0900)).2.2.1
    (sampleForecast [point1000] [])
    (sampleForecast [{ point1000 with PrecipAccumulation := 990 }] [])
    (List.Forall₂.cons ⟨rfl, by decide⟩ List.Forall₂.nil)

/-! ## Hourly line -/

/-- C5, as stated, fails: the line printed for the snowy point at 09:30:00 ends
its temperatures with the single character U+2103, not with the two characters
degree sign and `C` of the stated format. -/
theorem createHourly_degree_sign_counterexample :
    createHourly tenths (truncHour ref0900) (sampleForecast [point0930] [])
        = "  09:30 ❄ 5.2℃/3.5℃ 50%/5cm\n"
      ∧ hourlyLineDegreeSignC tenths point0930 = "  09:30 ❄ 5.2°C/3.5°C 50%/5cm\n"
      ∧ createHourly tenths (truncHour ref0900) (sampleForecast [point0930] [])
          ≠ hourlyLineDegreeSignC tenths point0930 := by
  decide

/-- C5, amended: the text of `createHourly` is, for every selected point in input
order, the line made of two spaces, the time as `HH:MM`, a space, the glyph of
the condition when `icons` has one and the summary text otherwise, a space, the
temperature with one decimal and the character U+2103, `/`, the apparent
temperature with one decimal and the character U+2103, a space, the probability
times 100 with zero decimals and `%`, for Snow `/` + accumulation + `cm`, and a
line feed. -/
theorem createHourly_line_format {α : Type} (F : FloatFmt α) (date : Time)
    (f : ForecastResponse α) :
    createHourly F date f
      = concatAll ((f.Hourly.Data.filter fun p => (truncHour p.Time).Equal date).map fun p =>
          "  " ++ p.Time.Format1504 ++ " "
            ++ (match icons.lookup p.Weather with
                | some ico => String.singleton (Char.ofNat ico)
                | none => p.Summary)
            ++ " " ++ F.sprintf1 p.Temperature ++ String.singleton (Char.ofNat 0x2103)
            ++ "/" ++ F.sprintf1 p.ApparentTemperature ++ String.singleton (Char.ofNat 0x2103)
            ++ " " ++ F.sprintf0 (F.mul100 p.PrecipProbability) ++ "%"
            ++ (if p.Weather = WeatherSnow
                then "/" ++ F.sprintf0 p.PrecipAccumulation ++ "cm" else "")
            ++ "\n") := by
  rw [createHourly_eq_lines]
  have hsel : hourlySelected date = fun p : dataPoint α => (truncHour p.Time).Equal date := by
    funext p
    simp [hourlySelected, Time.Equal]
  have hline : hourlyLine F = fun p : dataPoint α =>
      "  " ++ p.Time.Format1504 ++ " "
        ++ (match icons.lookup p.Weather with
            | some ico => String.singleton (Char.ofNat ico)
            | none => p.Summary)
        ++ " " ++ F.sprintf1 p.Temperature ++ String.singleton (Char.ofNat 0x2103)
        ++ "/" ++ F.sprintf1 p.ApparentTemperature ++ String.singleton (Char.ofNat 0x2103)
        ++ " " ++ F.sprintf0 (F.mul100 p.PrecipProbability) ++ "%"
        ++ (if p.Weather = WeatherSnow
            then "/" ++ F.sprintf0 p.PrecipAccumulation ++ "cm" else "")
        ++ "\n" := by
    funext p
    have hc : String.singleton (Char.ofNat 0x2103) = "℃" := by decide
    rw [hc]
    apply String.ext
    simp only [hourlyLine, hourlyHead, percent, accumulation, glyphOr]
    cases icons.lookup p.Weather <;> simp
  rw [hsel, hline]

/-! ## Daily blocks -/

/-- C6: for a float formatter whose texts contain no line feed, the text of
`createDaily` is the concatenation, in input order, of one block per point in
the window `date < d <= date.AddDate(0, 0, 3)`; a block is three lines without
a line feed inside, each followed by a line feed, and a fourth, empty, line
with its line feed; the text has `4 * k` line feeds for `k` points in the
window; it is empty when there are no daily points and when no point is in the
window. -/
theorem createDaily_four_lines {α : Type} (F : FloatFmt α) (hF : F.singleLine)
    (loc : Location) (date : Time) (f : ForecastResponse α) :
    createDaily F loc date f
        = concatAll ((f.Daily.Data.filter
            (inDailyWindow date (date.AddDate loc dateRange))).map fun p =>
            dailyFirst F p ++ "\n" ++ dailyHigh F p ++ "\n" ++ dailyLow F p ++ "\n"
              ++ "" ++ "\n")
      ∧ (∀ p : dataPoint α, newlines (dailyFirst F p) = 0 ∧ newlines (dailyHigh F p) = 0
          ∧ newlines (dailyLow F p) = 0)
      ∧ newlines (createDaily F loc date f)
          = 4 * (f.Daily.Data.filter (inDailyWindow date (date.AddDate loc dateRange))).length
      ∧ (f.Daily.Data = [] → createDaily F loc date f = "")
      ∧ (f.Daily.Data.filter (inDailyWindow date (date.AddDate loc dateRange)) = [] →
          createDaily F loc date f = "") := by
  have hblock : dailyBlock F = fun p : dataPoint α =>
      dailyFirst F p ++ "\n" ++ dailyHigh F p ++ "\n" ++ dailyLow F p ++ "\n" ++ "" ++ "\n" := by
    funext p
    simp only [dailyBlock, String.append_empty]
  have hfour : ∀ p : dataPoint α, newlines (dailyBlock F p) = 4 := by
    intro p
    obtain ⟨h1, h2, h3⟩ := newlines_dailyBlock F hF p
    have hlf : newlines "\n" = 1 := by decide
    simp only [dailyBlock, newlines_append, h1, h2, h3, hlf]
  refine ⟨?_, newlines_dailyBlock F hF, ?_, ?_, ?_⟩
  · rw [createDaily_eq_blocks, hblock]
  · rw [createDaily_eq_blocks]
    exact newlines_concatAll_map _ 4 hfour _
  · intro hnil
    rw [createDaily_eq_blocks, hnil]
    rfl
  · intro hnone
    rw [createDaily_eq_blocks, hnone]
    rfl

/-- Witness for C6: for the date 2024-11-01T00:00:00 in New York and daily points
on November 1, 4 and 5 there, the text has the four line feeds of the one point
in the window, the point of November 4. -/
theorem createDaily_four_lines_witness :
    newlines (createDaily tenths newYork nov1NewYork
        (sampleForecast []
          [{ nov4Point with Time := nov1NewYork }, nov4Point,
            { nov4Point with Time := Time.Unix (-18000) (1730696400 + 86400) 0 }]))
      = 4 * ((sampleForecast []
          [{ nov4Point with Time := nov1NewYork }, nov4Point,
            { nov4Point with Time := Time.Unix (-18000) (1730696400 + 86400) 0 }]).Daily.Data.filter
            (inDailyWindow nov1NewYork (nov1NewYork.AddDate newYork dateRange))).length :=
  (createDaily_four_lines tenths tenths_singleLine newYork nov1NewYork _).2.2.1

/-- The daily text for the date 2024-11-01T00:00:00 in New York and the point of
2024-11-04T00:00:00 there: the window ends 73 hours after the date, on the
point, and the block of the point is printed. -/
theorem createDaily_across_clock_change :
    (nov1NewYork.AddDate newYork dateRange).ns = nov1NewYork.ns + 73 * Time.Hour
      ∧ createDaily tenths newYork nov1NewYork (sampleForecast [] [nov4Point])
          = "11/04 ☃  50%\n  12.3℃/10.1℃(19:00)\n  -0.5℃/-1.2℃(10:07)\n\n" := by
  decide

/-! ## Enum codec -/

theorem rangeValue_of_unique (order : List (String × Int)) (k : String) (v : Int)
    (hmem : (k, v) ∈ order) (huniq : ∀ k2, (k2, v) ∈ order → k2 = k) :
    rangeValue order v = k := by
  induction order with
  | nil => simp at hmem
  | cons x rest ih =>
    obtain ⟨a, b⟩ := x
    unfold rangeValue
    by_cases hb : b = v
    · subst hb
      simp only [beq_self_eq_true, if_true]
      exact huniq a (List.mem_cons_self _ _)
    · have hne : (b == v) = false := by simpa using hb
      simp only [hne]
      apply ih
      · rcases List.mem_cons.mp hmem with h | h
        · exact absurd (congrArg Prod.snd h).symm hb
        · exact h
      · intro k2 hk2
        exact huniq k2 (List.mem_cons_of_mem _ hk2)

theorem rangeValue_of_absent (order : List (String × Int)) (v : Int)
    (habs : ∀ k, (k, v) ∉ order) : rangeValue order v = "" := by
  induction order with
  | nil => rfl
  | cons x rest ih =>
    obtain ⟨a, b⟩ := x
    unfold rangeValue
    have hb : b ≠ v := fun h => habs a (by rw [h]; exact List.mem_cons_self _ _)
    have hne : (b == v) = false := by simpa using hb
    simp only [hne]
    exact ih fun k hk => habs k (List.mem_cons_of_mem _ hk)

theorem lookup_eq_none_of_absent {γ : Type} (xs : List (String × γ)) (s : String)
    (habs : ∀ w, (s, w) ∉ xs) : xs.lookup s = none := by
  induction xs with
  | nil => rfl
  | cons x rest ih =>
    obtain ⟨a, b⟩ := x
    have ha : s ≠ a := fun h => habs b (by rw [h]; exact List.mem_cons_self _ _)
    have hne : (s == a) = false := by simpa using ha
    simp only [List.lookup, hne]
    exact ih fun w hw => habs w (List.mem_cons_of_mem _ hw)

theorem lang_value_in (order : List (String × Lang)) (hperm : order.Perm langs) :
    Lang.ValueIn order LangEn = "en" ∧ Lang.ValueIn order LangJa = "ja" := by
  have hval : ∀ k v, (k, v) ∈ order ↔ (k = "en" ∧ v = LangEn) ∨ (k = "ja" ∧ v = LangJa) := by
    intro k v
    rw [hperm.mem_iff]
    simp [langs]
  unfold Lang.ValueIn
  constructor
  · apply rangeValue_of_unique
    · exact (hval _ _).mpr (Or.inl ⟨rfl, rfl⟩)
    · intro k2 hk2
      rcases (hval _ _).mp hk2 with ⟨h, _⟩ | ⟨_, h⟩
      · exact h
      · exact absurd h (by decide)
  · apply rangeValue_of_unique
    · exact (hval _ _).mpr (Or.inr ⟨rfl, rfl⟩)
    · intro k2 hk2
      rcases (hval _ _).mp hk2 with ⟨_, h⟩ | ⟨h, _⟩
      · exact absurd h (by decide)
      · exact h

theorem units_value_in (order : List (String × Units)) (hperm : order.Perm unitss) :
    Units.ValueIn order UnitsUS = "us" ∧ Units.ValueIn order UnitsSI = "si" := by
  have hval : ∀ k v, (k, v) ∈ order ↔ (k = "us" ∧ v = UnitsUS) ∨ (k = "si" ∧ v = UnitsSI) := by
    intro k v
    rw [hperm.mem_iff]
    simp [unitss]
  unfold Units.ValueIn
  constructor
  · apply rangeValue_of_unique
    · exact (hval _ _).mpr (Or.inl ⟨rfl, rfl⟩)
    · intro k2 hk2
      rcases (hval _ _).mp hk2 with ⟨h, _⟩ | ⟨_, h⟩
      · exact h
      · exact absurd h (by decide)
  · apply rangeValue_of_unique
    · exact (hval _ _).mpr (Or.inr ⟨rfl, rfl⟩)
    · intro k2 hk2
      rcases (hval _ _).mp hk2 with ⟨_, h⟩ | ⟨h, _⟩
      · exact absurd h (by decide)
      · exact h

/-- C7: for each language token `en`, `ja` and each unit token `us`, `si`,
converting the token to its value and back returns the token, whatever order
the loop of `Value` visits the entries of the table in. -/
theorem token_round_trip :
    (∀ order : List (String × Lang), order.Perm langs → ∀ t : String,
        t = "en" ∨ t = "ja" → Lang.ValueIn order (LangValueOf t) = t)
      ∧ (∀ order : List (String × Units), order.Perm unitss → ∀ t : String,
        t = "us" ∨ t = "si" → Units.ValueIn order (UnitsValueOf t) = t) := by
  constructor
  · intro order hperm t ht
    have hen : LangValueOf "en" = LangEn := by decide
    have hja : LangValueOf "ja" = LangJa := by decide
    rcases ht with rfl | rfl
    · rw [hen]
      exact (lang_value_in order hperm).1
    · rw [hja]
      exact (lang_value_in order hperm).2
  · intro order hperm t ht
    have hus : UnitsValueOf "us" = UnitsUS := by decide
    have hsi : UnitsValueOf "si" = UnitsSI := by decide
    rcases ht with rfl | rfl
    · rw [hus]
      exact (units_value_in order hperm).1
    · rw [hsi]
      exact (units_value_in order hperm).2

/-- Witness for C7: with the entries of `langs` visited in reverse order the
token `en` still comes back. -/
theorem token_round_trip_witness :
    Lang.ValueIn [("ja", LangJa), ("en", LangEn)] (LangValueOf "en") = "en" :=
  token_round_trip.1 [("ja", LangJa), ("en", LangEn)] (List.Perm.swap _ _ _) "en"
    (Or.inl rfl)

/-- C8: a string that is not a wire token converts to the Unknown value, for
languages and for units; a value that is not one of the two defined non-Unknown
constants (Unknown itself or any other integer) converts to the empty string,
in every visiting order; hence converting a defined value, Unknown included, to
its token and back returns the value. -/
theorem unknown_handling_total :
    (∀ s : String, s ≠ "en" → s ≠ "ja" → LangValueOf s = LangUnknown)
      ∧ (∀ s : String, s ≠ "us" → s ≠ "si" → UnitsValueOf s = UnitsUnknown)
      ∧ (∀ order : List (String × Lang), order.Perm langs → ∀ l : Lang,
          l ≠ LangEn → l ≠ LangJa → Lang.ValueIn order l = "")
      ∧ (∀ order : List (String × Units), order.Perm unitss → ∀ u : Units,
          u ≠ UnitsUS → u ≠ UnitsSI → Units.ValueIn order u = "")
      ∧ (∀ order : List (String × Lang), order.Perm langs → ∀ l : Lang,
          l = LangUnknown ∨ l = LangEn ∨ l = LangJa → LangValueOf (Lang.ValueIn order l) = l)
      ∧ (∀ order : List (String × Units), order.Perm unitss → ∀ u : Units,
          u = UnitsUnknown ∨ u = UnitsUS ∨ u = UnitsSI →
          UnitsValueOf (Units.ValueIn order u) = u) := by
  have hlangAbs : ∀ order : List (String × Lang), order.Perm langs → ∀ l : Lang,
      l ≠ LangEn → l ≠ LangJa → Lang.ValueIn order l = "" := by
    intro order hperm l h1 h2
    apply rangeValue_of_absent
    intro k hk
    rw [hperm.mem_iff] at hk
    simp only [langs, List.mem_cons, Prod.mk.injEq, List.mem_nil_iff, or_false] at hk
    rcases hk with ⟨_, h⟩ | ⟨_, h⟩
    · exact h1 h
    · exact h2 h
  have hunitsAbs : ∀ order : List (String × Units), order.Perm unitss → ∀ u : Units,
      u ≠ UnitsUS → u ≠ UnitsSI → Units.ValueIn order u = "" := by
    intro order hperm u h1 h2
    apply rangeValue_of_absent
    intro k hk
    rw [hperm.mem_iff] at hk
    simp only [unitss, List.mem_cons, Prod.mk.injEq, List.mem_nil_iff, or_false] at hk
    rcases hk with ⟨_, h⟩ | ⟨_, h⟩
    · exact h1 h
    · exact h2 h
  refine ⟨?_, ?_, hlangAbs, hunitsAbs, ?_, ?_⟩
  · intro s h1 h2
    have hnone : langs.lookup s = none := by
      apply lookup_eq_none_of_absent
      intro w hw
      simp only [langs, List.mem_cons, Prod.mk.injEq, List.mem_nil_iff, or_false] at hw
      rcases hw with ⟨h, _⟩ | ⟨h, _⟩
      · exact h1 h
      · exact h2 h
    simp only [LangValueOf, hnone]
  · intro s h1 h2
    have hnone : unitss.lookup s = none := by
      apply lookup_eq_none_of_absent
      intro w hw
      simp only [unitss, List.mem_cons, Prod.mk.injEq, List.mem_nil_iff, or_false] at hw
      rcases hw with ⟨h, _⟩ | ⟨h, _⟩
      · exact h1 h
      · exact h2 h
    simp only [UnitsValueOf, hnone]
  · intro order hperm l hl
    rcases hl with rfl | rfl | rfl
    · rw [hlangAbs order hperm LangUnknown (by decide) (by decide)]
      rfl
    · rw [(lang_value_in order hperm).1]
      rfl
    · rw [(lang_value_in order hperm).2]
      rfl
  · intro order hperm u hu
    rcases hu with rfl | rfl | rfl
    · rw [hunitsAbs order hperm UnitsUnknown (by decide) (by decide)]
      rfl
    · rw [(units_value_in order hperm).1]
      rfl
    · rw [(units_value_in order hperm).2]
      rfl

/-- Witness for C8: the string `fr` is no language token and converts to
`LangUnknown`. -/
theorem unknown_handling_total_witness : LangValueOf "fr" = LangUnknown :=
  unknown_handling_total.1 "fr" (by decide) (by decide)

/-! ## JSON decoders -/

theorem ofInt_parseInt64 (n : Int) (hlo : -9223372036854775808 ≤ n)
    (hhi : n ≤ 9223372036854775807) :
    unmarshalInt64 (JSON.ofInt n) 0 = .ok n := by
  have hv : (if decide (n < 0) = true then -(n.natAbs : Int) else (n.natAbs : Int)) = n := by
    by_cases hn : n < 0
    · simp only [hn, decide_True, if_true]
      omega
    · simp only [hn, decide_False, Bool.false_eq_true, if_false]
      omega
  simp only [JSON.ofInt, unmarshalInt64, JNumber.parseInt64, hv, Option.isNone_none,
    Bool.true_and, decide_eq_true hlo, decide_eq_true hhi, if_true]

/-- C9, as stated, fails: JSON `null` is not a JSON string, yet
`Weather.UnmarshalJSON` returns no error for it (the result is
`WeatherUnknown`). -/
theorem Weather_UnmarshalJSON_null_counterexample :
    JSON.null.isStr = false ∧ Weather.UnmarshalJSON JSON.null = Except.ok WeatherUnknown :=
  ⟨rfl, rfl⟩

/-- C9, amended: for every JSON value `j`, `Weather.UnmarshalJSON(j)` fails with
a decode error if and only if `j` is neither a JSON string nor `null`; for
`null` the result is `WeatherUnknown` without error; for a string of the table
`weathers` the result is the condition of its entry; for every other string the
result is `WeatherUnknown` without error. -/
theorem Weather_UnmarshalJSON_total (j : JSON) :
    ((∃ err, Weather.UnmarshalJSON j = Except.error err)
        ↔ (j.isStr = false ∧ j.isNull = false))
      ∧ Weather.UnmarshalJSON JSON.null = Except.ok WeatherUnknown
      ∧ (∀ (s : String) (w : Weather), (s, w) ∈ weathers →
          Weather.UnmarshalJSON (JSON.str s) = Except.ok w)
      ∧ (∀ s : String, (∀ w, (s, w) ∉ weathers) →
          Weather.UnmarshalJSON (JSON.str s) = Except.ok WeatherUnknown) := by
  refine ⟨?_, rfl, ?_, ?_⟩
  · cases j with
    | null =>
      have hnull : Weather.UnmarshalJSON JSON.null = Except.ok WeatherUnknown := rfl
      simp [hnull, JSON.isStr, JSON.isNull]
    | bool b => simp [Weather.UnmarshalJSON, unmarshalString, JSON.isStr, JSON.isNull]
    | num n => simp [Weather.UnmarshalJSON, unmarshalString, JSON.isStr, JSON.isNull]
    | str s =>
      simp only [Weather.UnmarshalJSON, unmarshalString, JSON.isStr, JSON.isNull]
      cases weathers.lookup s <;> simp
    | arr xs => simp [Weather.UnmarshalJSON, unmarshalString, JSON.isStr, JSON.isNull]
    | obj kvs => simp [Weather.UnmarshalJSON, unmarshalString, JSON.isStr, JSON.isNull]
  · intro s w hmem
    simp only [weathers, List.mem_cons, Prod.mk.injEq, List.mem_nil_iff, or_false] at hmem
    rcases hmem with ⟨rfl, rfl⟩ | ⟨rfl, rfl⟩ | ⟨rfl, rfl⟩ | ⟨rfl, rfl⟩ | ⟨rfl, rfl⟩
      | ⟨rfl, rfl⟩ | ⟨rfl, rfl⟩ | ⟨rfl, rfl⟩ | ⟨rfl, rfl⟩ | ⟨rfl, rfl⟩ <;> rfl
  · intro s habs
    simp only [Weather.UnmarshalJSON, unmarshalString, lookup_eq_none_of_absent weathers s habs]

/-- Witness for C9 (amended): the string `snow` decodes to `WeatherSnow`. -/
theorem Weather_UnmarshalJSON_total_witness :
    Weather.UnmarshalJSON (JSON.str "snow") = Except.ok WeatherSnow :=
  (Weather_UnmarshalJSON_total (JSON.str "snow")).2.2.1 "snow" WeatherSnow (by decide)

/-- C10, as stated, fails: JSON `null` is not an integer, yet
`apiTime.UnmarshalJSON` returns no error for it (the result is the instant of
the Unix epoch). -/
theorem apiTime_UnmarshalJSON_null_counterexample :
    JSON.null.isInt64 = false
      ∧ apiTime.UnmarshalJSON 0 JSON.null = Except.ok (Time.Unix 0 0 0) :=
  ⟨rfl, rfl⟩

/-- C10, amended: `apiTime.UnmarshalJSON(j)` succeeds with the instant `n`
seconds after the Unix epoch when `j` is the integer `n` within `int64`; it
returns a decode error for every JSON value that is neither an integer within
`int64` nor `null` (strings, numbers with a fraction or an exponent, booleans,
arrays, objects); for `null` it returns no error and the instant of the Unix
epoch. -/
theorem apiTime_UnmarshalJSON_total (localOff : Int) (j : JSON) :
    (∀ n : Int, -9223372036854775808 ≤ n → n ≤ 9223372036854775807 →
        apiTime.UnmarshalJSON localOff (JSON.ofInt n)
          = Except.ok { ns := n * 1000000000, off := localOff })
      ∧ ((∃ err, apiTime.UnmarshalJSON localOff j = Except.error err)
          ↔ (j.isInt64 = false ∧ j.isNull = false))
      ∧ apiTime.UnmarshalJSON localOff JSON.null
          = Except.ok { ns := 0, off := localOff } := by
  refine ⟨?_, ?_, ?_⟩
  · intro n hlo hhi
    simp only [apiTime.UnmarshalJSON, ofInt_parseInt64 n hlo hhi, Time.Unix, Time.Second,
      Int.add_zero]
  · cases j with
    | null => simp [apiTime.UnmarshalJSON, unmarshalInt64, JSON.isInt64, JSON.isNull]
    | bool b => simp [apiTime.UnmarshalJSON, unmarshalInt64, JSON.isInt64, JSON.isNull]
    | num n =>
      simp only [apiTime.UnmarshalJSON, unmarshalInt64, JSON.isInt64, JSON.isNull]
      cases n.parseInt64 <;> simp
    | str s => simp [apiTime.UnmarshalJSON, unmarshalInt64, JSON.isInt64, JSON.isNull]
    | arr xs => simp [apiTime.UnmarshalJSON, unmarshalInt64, JSON.isInt64, JSON.isNull]
    | obj kvs => simp [apiTime.UnmarshalJSON, unmarshalInt64, JSON.isInt64, JSON.isNull]
  · simp [apiTime.UnmarshalJSON, unmarshalInt64, Time.Unix]

/-- Witness for C10 (amended): the integer 1517138160 decodes to the instant that
many seconds after the epoch. -/
theorem apiTime_UnmarshalJSON_total_witness :
    apiTime.UnmarshalJSON 0 (JSON.ofInt 1517138160)
      = Except.ok { ns := 1517138160 * 1000000000, off := 0 } :=
  (apiTime_UnmarshalJSON_total 0 JSON.null).1 1517138160 (by decide) (by decide)

/-! ## Classification of HTTP responses -/

/-- C11: when the transport succeeds, the body is read, and the status is neither
200 nor 400, `forecast.Get` returns no response and the error with `Code` the
status and `Message` the body text as it is; the result is the same whatever
the JSON decoder is (it is not consulted). -/
theorem forecast_Get_other_status {R : Type} (U U2 : Unmarshal R)
    (httpGet : Bytes → Except String Response) (f : forecast) (lang : Lang) (units : Units)
    (res : Response) (body : String)
    (hres : httpGet (forecast.requestURL f lang units).String = .ok res)
    (hbody : res.Body = .ok body) (h200 : res.StatusCode ≠ 200) (h400 : res.StatusCode ≠ 400) :
    forecast.Get U httpGet f lang units
        = (none, some (.forecast { Code := res.StatusCode, Message := body }))
      ∧ forecast.Get U2 httpGet f lang units = forecast.Get U httpGet f lang units := by
  constructor
  · simp only [forecast.Get, hres, hbody, h200, h400, if_false]
  · simp only [forecast.Get, hres, hbody, h200, h400, if_false]

/-- Witness for C11: status 500 with body `boom` gives the error with code 500
and message `boom`. -/
theorem forecast_Get_other_status_witness :
    forecast.Get sampleUnmarshal (sampleServer 500 "boom") sampleClient LangJa UnitsSI
      = (none, some (.forecast { Code := 500, Message := "boom" })) :=
  (forecast_Get_other_status sampleUnmarshal sampleUnmarshal (sampleServer 500 "boom")
    sampleClient LangJa UnitsSI { StatusCode := 500, Body := .ok "boom" } "boom" rfl rfl
    (by decide) (by decide)).1

/-- C12: when the transport succeeds, the body is read, and the status is 400,
`forecast.Get` returns no response; when the body decodes as the error object,
the error returned is the decoded object, with its code and message; when the
body does not decode, the error returned is the decode error. -/
theorem forecast_Get_status_400 {R : Type} (U : Unmarshal R)
    (httpGet : Bytes → Except String Response) (f : forecast) (lang : Lang) (units : Units)
    (res : Response) (body : String)
    (hres : httpGet (forecast.requestURL f lang units).String = .ok res)
    (hbody : res.Body = .ok body) (h400 : res.StatusCode = 400) :
    (forecast.Get U httpGet f lang units).1 = none
      ∧ (∀ e : forecastError, U.forecastError body = (e, none) →
          (forecast.Get U httpGet f lang units).2 = some (.forecast e))
      ∧ (∀ (e : forecastError) (err : JSONError), U.forecastError body = (e, some err) →
          (forecast.Get U httpGet f lang units).2 = some (.decode err)) := by
  have h200 : res.StatusCode ≠ 200 := by rw [h400]; decide
  refine ⟨?_, ?_, ?_⟩
  · simp only [forecast.Get, hres, hbody, h200, h400, if_false, if_true]
    cases (U.forecastError body).2 <;> rfl
  · intro e he
    simp [forecast.Get, hres, hbody, h400, he]
  · intro e err he
    simp [forecast.Get, hres, hbody, h400, he]

/-- Witness for C12: status 400 with the body that writes code 400 and error `x`
gives the error with code 400 and message `x`. -/
theorem forecast_Get_status_400_witness :
    (forecast.Get sampleUnmarshal
        (sampleServer 400 "\x7b\"code\":400,\"error\":\"x\"\x7d") sampleClient LangJa UnitsSI).2
      = some (.forecast { Code := 400, Message := "x" }) :=
  (forecast_Get_status_400 sampleUnmarshal
    (sampleServer 400 "\x7b\"code\":400,\"error\":\"x\"\x7d") sampleClient LangJa UnitsSI
    { StatusCode := 400, Body := .ok "\x7b\"code\":400,\"error\":\"x\"\x7d" }
    "\x7b\"code\":400,\"error\":\"x\"\x7d" rfl rfl rfl).2.1
    { Code := 400, Message := "x" } (by decide)

/-- C13: when the client URL parses and the transport succeeds,
`lineNotify.Send` returns no error if and only if the status is 200, whatever
the body is; for any other status, a body that decodes as the error object
gives the error with the decoded status and message, and a body that does not
decode gives the decode error. -/
theorem lineNotify_Send_status {R : Type} (U : Unmarshal R)
    (httpDo : Request → Except String Response) (n : lineNotify) (u : URL) (msg : Bytes)
    (res : Response) (hurl : n.url = .ok u)
    (hdo : httpDo (lineNotify.request n.token u msg) = .ok res) :
    (lineNotify.Send U httpDo n msg = none ↔ res.StatusCode = 200)
      ∧ (∀ body : String, res.StatusCode ≠ 200 → res.Body = .ok body →
          (∀ e : notifyError, U.notifyError body = (e, none) →
            lineNotify.Send U httpDo n msg = some (.notify e))
          ∧ (∀ (e : notifyError) (err : JSONError), U.notifyError body = (e, some err) →
            lineNotify.Send U httpDo n msg = some (.decode err))) := by
  constructor
  · by_cases h200 : res.StatusCode = 200
    · simp only [lineNotify.Send, hurl, hdo, h200, if_true]
    · simp only [lineNotify.Send, hurl, hdo, h200, if_false, iff_false]
      cases hb : res.Body with
      | error err => simp
      | ok body =>
        simp only
        cases (U.notifyError body).2 <;> simp
  · intro body h200 hbody
    constructor
    · intro e he
      simp only [lineNotify.Send, hurl, hdo, h200, if_false, hbody, he]
    · intro e err he
      simp only [lineNotify.Send, hurl, hdo, h200, if_false, hbody, he]

/-- Witness for C13: status 400 with the body that writes status 400 and message
`bad` gives the error with status 400 and message `bad`. -/
theorem lineNotify_Send_status_witness :
    lineNotify.Send sampleUnmarshal
        (sampleServer 400 "\x7b\"status\":400,\"message\":\"bad\"\x7d")
        (NewLineNotify "XXXXX") (utf8Bytes "TEST")
      = some (.notify { Status := 400, Message := "bad" }) :=
  ((lineNotify_Send_status sampleUnmarshal
    (sampleServer 400 "\x7b\"status\":400,\"message\":\"bad\"\x7d")
    (NewLineNotify "XXXXX") lineNotifyAPIBaseURL (utf8Bytes "TEST")
    { StatusCode := 400, Body := .ok "\x7b\"status\":400,\"message\":\"bad\"\x7d" }
    rfl rfl).2 "\x7b\"status\":400,\"message\":\"bad\"\x7d" (by decide) rfl).1
    { Status := 400, Message := "bad" } (by decide)

/-! ## Form encoding -/

theorem hex_round_trip : ∀ n, n < 16 → ishex (upperhex n) = true ∧ unhex (upperhex n) = n := by
  decide

theorem QueryUnescape_percent (a b : Nat) (rest : Bytes) (ha : ishex a = true)
    (hb : ishex b = true) :
    QueryUnescape (37 :: a :: b :: rest)
      = (QueryUnescape rest).map fun t => (unhex a * 16 + unhex b) :: t := by
  rw [QueryUnescape]
  simp only [ha, hb, Bool.and_self, if_true]
  cases QueryUnescape rest <;> rfl

theorem QueryUnescape_plain (c : Nat) (rest : Bytes) (hc : c ≠ 37) :
    QueryUnescape (c :: rest)
      = (QueryUnescape rest).map fun t => (if c = 43 then 32 else c) :: t := by
  rw [QueryUnescape]
  · cases QueryUnescape rest <;> rfl
  all_goals (intros; simp_all)

theorem shouldEscape_query_false (c : Nat)
    (h : shouldEscape c .encodeQueryComponent = false) :
    c ≠ 37 ∧ c ≠ 43 ∧ c ≠ 32 ∧ c ≠ 38 ∧ c ≠ 59 ∧ c ≠ 61 := by
  refine ⟨?_, ?_, ?_, ?_, ?_, ?_⟩ <;> (rintro rfl; revert h; decide)

theorem escapeByte_query_cases (c : Nat) :
    (c = 32 ∧ escapeByte .encodeQueryComponent c = [43])
      ∨ (c ≠ 32 ∧ shouldEscape c .encodeQueryComponent = true
          ∧ escapeByte .encodeQueryComponent c = [37, upperhex (c / 16), upperhex (c % 16)])
      ∨ (shouldEscape c .encodeQueryComponent = false
          ∧ escapeByte .encodeQueryComponent c = [c]) := by
  by_cases h32 : c = 32
  · left
    simp [escapeByte, h32]
  · by_cases hesc : shouldEscape c .encodeQueryComponent = true
    · right; left
      simp [escapeByte, h32, hesc]
    · right; right
      have hf : shouldEscape c .encodeQueryComponent = false := by simpa using hesc
      simp [escapeByte, h32, hf]

theorem QueryUnescape_escapeByte (c : Nat) (hc : c < 256) (rest : Bytes) :
    QueryUnescape (escapeByte .encodeQueryComponent c ++ rest)
      = (QueryUnescape rest).map fun t => c :: t := by
  rcases escapeByte_query_cases c with ⟨h32, he⟩ | ⟨_, _, he⟩ | ⟨hf, he⟩
  · rw [he, List.singleton_append, QueryUnescape_plain 43 rest (by decide), h32]
    rfl
  · have hhi := hex_round_trip (c / 16) (by omega)
    have hlo := hex_round_trip (c % 16) (by omega)
    rw [he]
    simp only [List.cons_append, List.nil_append]
    rw [QueryUnescape_percent _ _ _ hhi.1 hlo.1, hhi.2, hlo.2]
    have hval : c / 16 * 16 + c % 16 = c := by omega
    rw [hval]
  · obtain ⟨h37, h43, _⟩ := shouldEscape_query_false c hf
    rw [he, List.singleton_append, QueryUnescape_plain c rest h37]
    simp only [h43, if_false]

theorem QueryUnescape_QueryEscape (m : Bytes) (hm : ∀ b ∈ m, b < 256) :
    QueryUnescape (QueryEscape m) = some m := by
  induction m with
  | nil => rfl
  | cons c m ih =>
    have hc : c < 256 := hm c (List.mem_cons_self _ _)
    have hrest : ∀ b ∈ m, b < 256 := fun b hb => hm b (List.mem_cons_of_mem _ hb)
    have hcons : QueryEscape (c :: m) = escapeByte .encodeQueryComponent c ++ QueryEscape m := by
      simp [QueryEscape, escape]
    rw [hcons, QueryUnescape_escapeByte c hc, ih hrest]
    rfl

theorem upperhex_not_separator (n : Nat) :
    upperhex n ≠ 38 ∧ upperhex n ≠ 59 ∧ upperhex n ≠ 61 := by
  unfold upperhex
  split_ifs <;> omega

theorem QueryEscape_no_separator (m : Bytes) :
    ∀ b ∈ QueryEscape m, b ≠ 38 ∧ b ≠ 59 ∧ b ≠ 61 := by
  induction m with
  | nil => simp [QueryEscape, escape]
  | cons c m ih =>
    have hcons : QueryEscape (c :: m) = escapeByte .encodeQueryComponent c ++ QueryEscape m := by
      simp [QueryEscape, escape]
    intro b hb
    rw [hcons, List.mem_append] at hb
    rcases hb with hb | hb
    · rcases escapeByte_query_cases c with ⟨_, he⟩ | ⟨_, _, he⟩ | ⟨hf, he⟩
      · rw [he] at hb
        simp only [List.mem_singleton] at hb
        omega
      · rw [he] at hb
        simp only [List.mem_cons, List.mem_nil_iff, or_false] at hb
        rcases hb with rfl | rfl | rfl
        · decide
        · exact upperhex_not_separator _
        · exact upperhex_not_separator _
      · rw [he] at hb
        simp only [List.mem_singleton] at hb
        obtain ⟨_, _, _, h38, h59, h61⟩ := shouldEscape_query_false c hf
        rw [hb]
        exact ⟨h38, h59, h61⟩
    · exact ih b hb

theorem cut_not_mem (sep : Nat) (s : Bytes) (h : sep ∉ s) : cut sep s = (s, [], false) := by
  induction s with
  | nil => rfl
  | cons c s ih =>
    have hc : c ≠ sep := fun e => h (by rw [e]; exact List.mem_cons_self _ _)
    have hs : sep ∉ s := fun e => h (List.mem_cons_of_mem _ e)
    simp [cut, hc, ih hs]

theorem cut_append (sep : Nat) (a b : Bytes) (h : sep ∉ a) :
    cut sep (a ++ sep :: b) = (a, b, true) := by
  induction a with
  | nil => simp [cut]
  | cons c a ih =>
    have hc : c ≠ sep := fun e => h (by rw [e]; exact List.mem_cons_self _ _)
    have ha : sep ∉ a := fun e => h (List.mem_cons_of_mem _ e)
    simp [cut, hc, ih ha]

theorem parseQueryLoop_nil (fuel : Nat) (m : Values) (err : Bool) :
    parseQueryLoop fuel m err [] = (m, err) := by
  cases fuel <;> simp [parseQueryLoop]

theorem ParseQuery_single (key value : Bytes)
    (hk : ∀ b ∈ key, b < 256) (hv : ∀ b ∈ value, b < 256) :
    ParseQuery (QueryEscape key ++ 61 :: QueryEscape value) = ([(key, [value])], false) := by
  have hne : QueryEscape key ++ 61 :: QueryEscape value ≠ [] := by simp
  have hlen : (QueryEscape key ++ 61 :: QueryEscape value).length
      = (QueryEscape key ++ QueryEscape value).length + 1 := by
    simp only [List.length_append, List.length_cons]
    omega
  have hamp : (38 : Nat) ∉ QueryEscape key ++ 61 :: QueryEscape value := by
    intro h
    rcases List.mem_append.mp h with h | h
    · exact (QueryEscape_no_separator key 38 h).1 rfl
    · rcases List.mem_cons.mp h with h | h
      · exact absurd h (by decide)
      · exact (QueryEscape_no_separator value 38 h).1 rfl
  have hsemi : (59 : Nat) ∉ QueryEscape key ++ 61 :: QueryEscape value := by
    intro h
    rcases List.mem_append.mp h with h | h
    · exact (QueryEscape_no_separator key 59 h).2.1 rfl
    · rcases List.mem_cons.mp h with h | h
      · exact absurd h (by decide)
      · exact (QueryEscape_no_separator value 59 h).2.1 rfl
  have heq : (61 : Nat) ∉ QueryEscape key := fun h => (QueryEscape_no_separator key 61 h).2.2 rfl
  unfold ParseQuery
  rw [hlen, parseQueryLoop]
  simp only [hne, if_false, cut_not_mem 38 _ hamp, cut_append 61 _ _ heq,
    QueryUnescape_QueryEscape key hk, QueryUnescape_QueryEscape value hv, parseQueryLoop_nil]
  have hs1 : (59 : Nat) ∉ QueryEscape key := fun h => (QueryEscape_no_separator key 59 h).2.1 rfl
  have hs2 : (59 : Nat) ∉ QueryEscape value :=
    fun h => (QueryEscape_no_separator value 59 h).2.1 rfl
  simp [hs1, hs2, Values.Add]

/-- C14: for every message `m` (a sequence of bytes), the body of the request
`Send` builds is the text `message=` followed by the query escaping of `m`;
parsing that body as a form gives, without error, the single field `message`
with the single value `m`; and unescaping the escaped message gives back
`m`. -/
theorem send_body_round_trip (token : String) (u : URL) (m : Bytes)
    (hm : ∀ b ∈ m, b < 256) :
    (lineNotify.request token u m).Body = utf8Bytes "message=" ++ QueryEscape m
      ∧ ParseQuery (lineNotify.request token u m).Body
          = ([(utf8Bytes "message", [m])], false)
      ∧ QueryUnescape (QueryEscape m) = some m := by
  have hkey : QueryEscape (utf8Bytes "message") = utf8Bytes "message" := by decide
  have hbody : (lineNotify.request token u m).Body
      = QueryEscape (utf8Bytes "message") ++ 61 :: QueryEscape m := by
    simp [lineNotify.request, Values.Set, Values.Encode, sortByKey, insertByKey]
  refine ⟨?_, ?_, QueryUnescape_QueryEscape m hm⟩
  · rw [hbody, hkey]
    have hlit : utf8Bytes "message=" = utf8Bytes "message" ++ [61] := by decide
    rw [hlit]
    simp
  · rw [hbody]
    exact ParseQuery_single _ _ (by decide) hm

/-- Witness for C14: a message with a space, `&`, `=`, `%`, `+`, a line feed and
a non-ASCII glyph comes back unchanged from the body. -/
theorem send_body_round_trip_witness :
    ParseQuery (lineNotify.request "XXXXX" lineNotifyAPIBaseURL
        (utf8Bytes "a b&c=d%+\n℃")).Body
      = ([(utf8Bytes "message", [utf8Bytes "a b&c=d%+\n℃"])], false) :=
  (send_body_round_trip "XXXXX" lineNotifyAPIBaseURL (utf8Bytes "a b&c=d%+\n℃")
    (by decide)).2.1

/-! ## The forecast URL -/

theorem splitOn_not_mem (sep : Nat) (a : Bytes) (h : sep ∉ a) : splitOn sep a = [a] := by
  induction a with
  | nil => rfl
  | cons c a ih =>
    have hc : c ≠ sep := fun e => h (by rw [e]; exact List.mem_cons_self _ _)
    have ha : sep ∉ a := fun e => h (List.mem_cons_of_mem _ e)
    simp [splitOn, hc, ih ha]

theorem splitOn_append (sep : Nat) (a b : Bytes) (h : sep ∉ a) :
    splitOn sep (a ++ sep :: b) = a :: splitOn sep b := by
  induction a with
  | nil => simp [splitOn]
  | cons c a ih =>
    have hc : c ≠ sep := fun e => h (by rw [e]; exact List.mem_cons_self _ _)
    have ha : sep ∉ a := fun e => h (List.mem_cons_of_mem _ e)
    simp [splitOn, hc, ih ha]

theorem splitOn_joinWith (sep : Nat) (elems : List Bytes) (hne : elems ≠ [])
    (h : ∀ e ∈ elems, sep ∉ e) : splitOn sep (joinWith sep elems) = elems := by
  induction elems with
  | nil => exact absurd rfl hne
  | cons x xs ih =>
    cases xs with
    | nil => exact splitOn_not_mem sep x (h x (List.mem_cons_self _ _))
    | cons y rest =>
      have hx : sep ∉ x := h x (List.mem_cons_self _ _)
      have hrest : ∀ e ∈ y :: rest, sep ∉ e := fun e he => h e (List.mem_cons_of_mem _ he)
      simp only [joinWith]
      rw [splitOn_append sep x _ hx, ih (by simp) hrest]

theorem foldl_cleanElem_kept (rooted : Bool) (elems out : List Bytes)
    (h : ∀ e ∈ elems, e ≠ [] ∧ e ≠ [46] ∧ e ≠ [46, 46]) :
    elems.foldl (cleanElem rooted) out = out ++ elems := by
  induction elems generalizing out with
  | nil => simp
  | cons x xs ih =>
    obtain ⟨h1, h2, h3⟩ := h x (List.mem_cons_self _ _)
    have hstep : cleanElem rooted out x = out ++ [x] := by
      simp [cleanElem, h1, h2, h3]
    rw [List.foldl_cons, hstep, ih _ fun e he => h e (List.mem_cons_of_mem _ he)]
    simp

theorem escape_eq_self (mode : encoding) (s : Bytes)
    (h : ∀ b ∈ s, escapeByte mode b = [b]) : escape s mode = s := by
  induction s with
  | nil => rfl
  | cons c s ih =>
    have hc := h c (List.mem_cons_self _ _)
    have hs := ih fun b hb => h b (List.mem_cons_of_mem _ hb)
    simp only [escape, List.flatMap_cons] at hs ⊢
    rw [hc, hs]
    rfl

theorem escapeByte_path_safe (b : Nat) (h : shouldEscape b .encodePath = false) :
    escapeByte .encodePath b = [b] := by
  simp [escapeByte, h]

theorem pathSafe_iff (s : Bytes) :
    pathSafe s = true ↔ ∀ b ∈ s, b ≠ 47 ∧ shouldEscape b .encodePath = false := by
  simp [pathSafe, List.all_eq_true]

theorem forecast_path (token lat long : Bytes) (ht : plainElem token = true)
    (hlat : pathSafe lat = true) (hlong : pathSafe long = true) :
    path.Join [[], utf8Bytes "forecast", token, lat ++ [44] ++ long]
      = utf8Bytes "forecast/" ++ token ++ [47] ++ lat ++ [44] ++ long := by
  have hF : utf8Bytes "forecast" = [102, 111, 114, 101, 99, 97, 115, 116] := by decide
  have hF2 : utf8Bytes "forecast/" = [102, 111, 114, 101, 99, 97, 115, 116, 47] := by decide
  simp only [plainElem, Bool.and_eq_true, bne_iff_ne, ne_eq] at ht
  obtain ⟨⟨⟨ht1, ht2⟩, ht3⟩, ht4⟩ := ht
  have htok := (pathSafe_iff token).mp ht4
  have hla := (pathSafe_iff lat).mp hlat
  have hlo := (pathSafe_iff long).mp hlong
  have hll : (47 : Nat) ∉ lat ++ [44] ++ long := by
    intro h
    simp only [List.mem_append, List.mem_singleton] at h
    rcases h with (h | h) | h
    · exact (hla 47 h).1 rfl
    · exact absurd h (by decide)
    · exact (hlo 47 h).1 rfl
  have hcomma : (44 : Nat) ∈ lat ++ [44] ++ long := by simp
  have hbuf : path.Join [[], utf8Bytes "forecast", token, lat ++ [44] ++ long]
      = path.Clean (joinWith 47 [utf8Bytes "forecast", token, lat ++ [44] ++ long]) := by
    simp [path.Join, hF, joinWith, ht1]
  have hsplit := splitOn_joinWith 47 [utf8Bytes "forecast", token, lat ++ [44] ++ long]
    (by simp) (by
      intro e he
      simp only [List.mem_cons, List.mem_nil_iff, or_false] at he
      rcases he with rfl | rfl | rfl
      · rw [hF]; decide
      · exact fun h => (htok 47 h).1 rfl
      · exact hll)
  have hkept : ∀ rooted : Bool,
      [utf8Bytes "forecast", token, lat ++ [44] ++ long].foldl (cleanElem rooted) []
        = [] ++ [utf8Bytes "forecast", token, lat ++ [44] ++ long] := fun rooted =>
    foldl_cleanElem_kept rooted [utf8Bytes "forecast", token, lat ++ [44] ++ long] []
      (by
        intro e he
        simp only [List.mem_cons, List.mem_nil_iff, or_false] at he
        rcases he with rfl | rfl | rfl
        · rw [hF]; decide
        · exact ⟨ht1, ht2, ht3⟩
        · refine ⟨?_, ?_, ?_⟩ <;> (intro h; rw [h] at hcomma; revert hcomma; decide))
  have hjoin : joinWith 47 [utf8Bytes "forecast", token, lat ++ [44] ++ long]
      = 102 :: ([111, 114, 101, 99, 97, 115, 116] ++ 47 :: (token ++ 47 :: (lat ++ [44] ++ long))) := by
    simp [joinWith, hF]
  rw [hbuf]
  unfold path.Clean
  simp only [hsplit, hkept, List.nil_append]
  rw [hjoin]
  simp [hF2]

theorem URL_String_relative (S H P : Bytes) (hS : S ≠ []) (hH : H ≠ [])
    (hHe : escape H .encodeHost = H) (hPe : escape P .encodePath = P) (hP : P ≠ [])
    (hhead : P.head? ≠ some 47) (h42 : P ≠ [42]) :
    URL.String { Scheme := S, Host := H, Path := P, RawQuery := [] }
      = S ++ [58] ++ [47, 47] ++ H ++ [47] ++ P := by
  have hlen : ¬ (S ++ [58] ++ [47, 47] ++ H ++ [47]).length = 0 := by simp
  simp only [URL.String, URL.EscapedPath, h42, if_false, hPe, hHe, ne_eq, hS, hH, hP, hhead,
    not_false_eq_true, true_or, or_true, and_self, if_true, List.nil_append, hlen, false_and,
    not_true_eq_false]

/-- C15, as stated, fails: with an empty token the URL has no empty path element,
and with the token `..` the element `forecast` is gone; in both cases the URL
is not the base followed by `/forecast/`, the token, `/`, the latitude, `,` and
the longitude. -/
theorem NewForecast_url_counterexample :
    (NewForecast [] (utf8Bytes "1") (utf8Bytes "2")).map (fun f => f.url.String)
        = some (utf8Bytes "https://api.darksky.net/forecast/1,2")
      ∧ (NewForecast (utf8Bytes "..") (utf8Bytes "1") (utf8Bytes "2")).map
          (fun f => f.url.String) = some (utf8Bytes "https://api.darksky.net/1,2")
      ∧ (NewForecast (utf8Bytes "..") (utf8Bytes "1") (utf8Bytes "2")).map
          (fun f => f.url.String)
          ≠ some (utf8Bytes forecastAPIBase ++ utf8Bytes "/forecast/" ++ utf8Bytes ".."
              ++ utf8Bytes "/" ++ utf8Bytes "1" ++ utf8Bytes "," ++ utf8Bytes "2") := by
  decide

/-- C15, amended: `NewForecast` always returns a client; when the token is a
path element that cleaning and escaping keep (not empty, not `.` or `..`,
without `/`, of letters, digits and ``-_.~$&+,:;=@``) and latitude and
longitude are made of such bytes, the URL of the client, as a string, is
`forecastAPIBase` followed by `/forecast/`, the token, `/`, the latitude, `,`
and the longitude. -/
theorem NewForecast_url (token lat long : Bytes) :
    (NewForecast token lat long).isSome = true
      ∧ (plainElem token = true → pathSafe lat = true → pathSafe long = true →
          (NewForecast token lat long).map (fun f => f.url.String)
            = some (utf8Bytes forecastAPIBase ++ utf8Bytes "/forecast/" ++ token ++ [47]
                ++ lat ++ [44] ++ long)) := by
  refine ⟨rfl, ?_⟩
  intro ht hlat hlong
  have hpath := forecast_path token lat long ht hlat hlong
  have hF2 : utf8Bytes "forecast/" = [102, 111, 114, 101, 99, 97, 115, 116, 47] := by decide
  have hbase : utf8Bytes forecastAPIBase ++ utf8Bytes "/forecast/"
      = utf8Bytes "https" ++ [58] ++ [47, 47] ++ utf8Bytes "api.darksky.net" ++ [47]
          ++ utf8Bytes "forecast/" := by decide
  have hhost : escape (utf8Bytes "api.darksky.net") .encodeHost = utf8Bytes "api.darksky.net" := by
    decide
  have hs1 : utf8Bytes "https" ≠ [] := by decide
  have hs2 : utf8Bytes "api.darksky.net" ≠ [] := by decide
  simp only [plainElem, Bool.and_eq_true] at ht
  have htok := (pathSafe_iff token).mp ht.2
  have hla := (pathSafe_iff lat).mp hlat
  have hlo := (pathSafe_iff long).mp hlong
  have hesc : escape (utf8Bytes "forecast/" ++ token ++ [47] ++ lat ++ [44] ++ long) .encodePath
      = utf8Bytes "forecast/" ++ token ++ [47] ++ lat ++ [44] ++ long := by
    apply escape_eq_self
    intro b hb
    apply escapeByte_path_safe
    simp only [List.mem_append, List.mem_singleton] at hb
    rcases hb with ((((hb | hb) | hb) | hb) | hb) | hb
    · rw [hF2] at hb
      revert b
      decide
    · exact (htok b hb).2
    · rw [hb]; decide
    · exact (hla b hb).2
    · rw [hb]; decide
    · exact (hlo b hb).2
  have hne : utf8Bytes "forecast/" ++ token ++ [47] ++ lat ++ [44] ++ long ≠ [] := by
    rw [hF2]; simp
  have hhead : (utf8Bytes "forecast/" ++ token ++ [47] ++ lat ++ [44] ++ long).head? ≠ some 47 := by
    rw [hF2]; simp
  have h42 : utf8Bytes "forecast/" ++ token ++ [47] ++ lat ++ [44] ++ long ≠ [42] := by
    rw [hF2]; simp
  have hstr := URL_String_relative (utf8Bytes "https") (utf8Bytes "api.darksky.net")
    (utf8Bytes "forecast/" ++ token ++ [47] ++ lat ++ [44] ++ long) hs1 hs2 hhost hesc hne hhead h42
  simp only [NewForecast, Option.map_some', Option.some.injEq, forecastAPIBaseURL, List.nil_append]
  rw [hpath, hstr, hbase]
  simp only [List.append_assoc]

/-- Witness for C15 (amended): token `abcde`, latitude `123.45`, longitude
`67.890`. -/
theorem NewForecast_url_witness :
    (NewForecast (utf8Bytes "abcde") (utf8Bytes "123.45") (utf8Bytes "67.890")).map
        (fun f => f.url.String)
      = some (utf8Bytes forecastAPIBase ++ utf8Bytes "/forecast/" ++ utf8Bytes "abcde" ++ [47]
          ++ utf8Bytes "123.45" ++ [44] ++ utf8Bytes "67.890") :=
  (NewForecast_url (utf8Bytes "abcde") (utf8Bytes "123.45") (utf8Bytes "67.890")).2
    (by decide) (by decide) (by decide)

/-! ## The forecast query -/

theorem lang_representative (lang : Lang) :
    ∃ l : Lang, l ∈ [0, 1, 2, 3] ∧ (lang = LangUnknown ↔ l = LangUnknown)
      ∧ Lang.Value lang = Lang.Value l := by
  by_cases h0 : lang = 0
  · exact ⟨0, by decide, by simp [h0], by rw [h0]⟩
  · by_cases h1 : lang = 1
    · exact ⟨1, by decide, by simp [h1], by rw [h1]⟩
    · by_cases h2 : lang = 2
      · exact ⟨2, by decide, by simp [h2], by rw [h2]⟩
      · refine ⟨3, by decide, ?_, ?_⟩
        · simp [LangUnknown, h0]
        · have habs : Lang.Value lang = "" := by
            apply rangeValue_of_absent
            intro k hk
            simp only [langs, LangEn, LangJa, List.mem_cons, Prod.mk.injEq, List.mem_nil_iff,
              or_false] at hk
            rcases hk with ⟨_, h⟩ | ⟨_, h⟩
            · exact h1 h
            · exact h2 h
          rw [habs]
          decide

theorem units_representative (units : Units) :
    ∃ u : Units, u ∈ [0, 1, 2, 3] ∧ (units = UnitsUnknown ↔ u = UnitsUnknown)
      ∧ Units.Value units = Units.Value u := by
  by_cases h0 : units = 0
  · exact ⟨0, by decide, by simp [h0], by rw [h0]⟩
  · by_cases h1 : units = 1
    · exact ⟨1, by decide, by simp [h1], by rw [h1]⟩
    · by_cases h2 : units = 2
      · exact ⟨2, by decide, by simp [h2], by rw [h2]⟩
      · refine ⟨3, by decide, ?_, ?_⟩
        · simp [UnitsUnknown, h0]
        · have habs : Units.Value units = "" := by
            apply rangeValue_of_absent
            intro k hk
            simp only [unitss, UnitsUS, UnitsSI, List.mem_cons, Prod.mk.injEq, List.mem_nil_iff,
              or_false] at hk
            rcases hk with ⟨_, h⟩ | ⟨_, h⟩
            · exact h1 h
            · exact h2 h
          rw [habs]
          decide

theorem forecast_query_decoded_table :
    ∀ l ∈ ([0, 1, 2, 3] : List Lang), ∀ u ∈ ([0, 1, 2, 3] : List Units),
      ParseQuery (Values.Encode (forecast.values l u)) = (expectedQuery l u, false) := by
  decide

theorem forecast_query_decoded (lang : Lang) (units : Units) :
    ParseQuery (Values.Encode (forecast.values lang units))
      = (expectedQuery lang units, false) := by
  obtain ⟨l, hl, hl0, hlv⟩ := lang_representative lang
  obtain ⟨u, hu, hu0, huv⟩ := units_representative units
  have hlb : (lang = LangUnknown) = (l = LangUnknown) := propext hl0
  have hub : (units = UnitsUnknown) = (u = UnitsUnknown) := propext hu0
  have hvalues : forecast.values lang units = forecast.values l u := by
    simp only [forecast.values, bne_iff_ne, ne_eq, hlb, hub, hlv, huv]
  have hexpected : expectedQuery lang units = expectedQuery l u := by
    simp only [expectedQuery, hlb, hub, hlv, huv]
  rw [hvalues, hexpected]
  exact forecast_query_decoded_table l hl u hu

/-- C16: decoding the raw query of the request of `forecast.Get` gives, without
error, the parameter `lang` if and only if `lang` is not `LangUnknown`, with
the value `lang.Value()`, the parameter `units` if and only if `units` is not
`UnitsUnknown`, with the value `units.Value()`, always the parameter `exclude`
with the value `currently,minutely,alerts,flags`, and no other parameter. -/
theorem forecast_query_parameters (f : forecast) (lang : Lang) (units : Units) :
    (ParseQuery (forecast.requestURL f lang units).RawQuery).2 = false
      ∧ Values.lookup (ParseQuery (forecast.requestURL f lang units).RawQuery).1
            (utf8Bytes "lang")
          = (if lang = LangUnknown then none else some [utf8Bytes (Lang.Value lang)])
      ∧ Values.lookup (ParseQuery (forecast.requestURL f lang units).RawQuery).1
            (utf8Bytes "units")
          = (if units = UnitsUnknown then none else some [utf8Bytes (Units.Value units)])
      ∧ Values.lookup (ParseQuery (forecast.requestURL f lang units).RawQuery).1
            (utf8Bytes "exclude")
          = some [utf8Bytes "currently,minutely,alerts,flags"]
      ∧ (∀ key : Bytes, key ≠ utf8Bytes "lang" → key ≠ utf8Bytes "units" →
          key ≠ utf8Bytes "exclude" →
          Values.lookup (ParseQuery (forecast.requestURL f lang units).RawQuery).1 key
            = none) := by
  have hraw : (forecast.requestURL f lang units).RawQuery
      = Values.Encode (forecast.values lang units) := rfl
  rw [hraw, forecast_query_decoded]
  have h1 : utf8Bytes "exclude" ≠ utf8Bytes "lang" := by decide
  have h2 : utf8Bytes "exclude" ≠ utf8Bytes "units" := by decide
  have h3 : utf8Bytes "lang" ≠ utf8Bytes "units" := by decide
  refine ⟨rfl, ?_, ?_, ?_, ?_⟩
  · by_cases hl : lang = LangUnknown <;> by_cases hu : units = UnitsUnknown <;>
      simp [expectedQuery, Values.lookup, hl, hu, h1, h2, h3, h3.symm]
  · by_cases hl : lang = LangUnknown <;> by_cases hu : units = UnitsUnknown <;>
      simp [expectedQuery, Values.lookup, hl, hu, h1, h2, h3, h3.symm]
  · simp [expectedQuery, Values.lookup]
  · intro key hk1 hk2 hk3
    by_cases hl : lang = LangUnknown <;> by_cases hu : units = UnitsUnknown <;>
      simp [expectedQuery, Values.lookup, hl, hu, hk1.symm, hk2.symm, hk3.symm]

/-- Witness for C16: for Japanese and SI units a parameter named `flags` is not
in the query. -/
theorem forecast_query_parameters_witness :
    Values.lookup (ParseQuery (forecast.requestURL sampleClient LangJa UnitsSI).RawQuery).1
        (utf8Bytes "flags") = none :=
  (forecast_query_parameters sampleClient LangJa UnitsSI).2.2.2.2 (utf8Bytes "flags")
    (by decide) (by decide) (by decide)

/-! ## Glyph table -/

theorem lookup_mem_pair {γ : Type} (xs : List (Int × γ)) (k : Int) (v : γ)
    (h : xs.lookup k = some v) : (k, v) ∈ xs := by
  induction xs with
  | nil => simp [List.lookup] at h
  | cons x xs ih =>
    obtain ⟨a, b⟩ := x
    simp only [List.lookup] at h
    by_cases hk : k = a
    · subst hk
      simp only [beq_self_eq_true, Option.some.injEq] at h
      rw [h]
      exact List.mem_cons_self _ _
    · have hne : (k == a) = false := by simpa using hk
      rw [hne] at h
      exact List.mem_cons_of_mem _ (ih h)

theorem icons_lookup_defined (w : Weather) (h : 1 ≤ w ∧ w ≤ 10) :
    ∃ ico, icons.lookup w = some ico := by
  obtain ⟨h1, h2⟩ := h
  interval_cases w <;> exact ⟨_, rfl⟩

theorem icons_lookup_undefined (w : Weather) (h : ¬ (1 ≤ w ∧ w ≤ 10)) :
    icons.lookup w = none := by
  cases hl : icons.lookup w with
  | none => rfl
  | some ico =>
    exfalso
    apply h
    have hmem := lookup_mem_pair icons w ico hl
    simp only [icons, WeatherClearDay, WeatherClearNight, WeatherRain, WeatherSnow, WeatherSleet,
      WeatherWind, WeatherFog, WeatherCloudy, WeatherPartlyCloudyDay, WeatherPartlyCloudyNight,
      List.mem_cons, Prod.mk.injEq, List.mem_nil_iff, or_false] at hmem
    rcases hmem with ⟨rfl, _⟩ | ⟨rfl, _⟩ | ⟨rfl, _⟩ | ⟨rfl, _⟩ | ⟨rfl, _⟩ | ⟨rfl, _⟩
      | ⟨rfl, _⟩ | ⟨rfl, _⟩ | ⟨rfl, _⟩ | ⟨rfl, _⟩ <;> decide

/-- C17: `icons` has an entry exactly for the ten defined conditions 1 to 10 and
none for `WeatherUnknown`; ClearNight has the code point of ClearDay and
PartlyCloudyNight that of PartlyCloudyDay; so a selected hourly point is
printed with its summary text, and a daily point in the window with `??`, if
and only if its condition is `WeatherUnknown` or another value outside 1 to
10, and with the glyph of its condition otherwise. -/
theorem icons_cover_defined_conditions {α : Type} (F : FloatFmt α) (loc : Location)
    (date : Time) :
    (∀ w : Weather, (icons.lookup w).isSome = true ↔ (1 ≤ w ∧ w ≤ 10))
      ∧ icons.lookup WeatherUnknown = none
      ∧ icons.lookup WeatherClearNight = icons.lookup WeatherClearDay
      ∧ icons.lookup WeatherPartlyCloudyNight = icons.lookup WeatherPartlyCloudyDay
      ∧ (∀ (w : Weather) (fallback : String),
          glyphOr w fallback
            = if 1 ≤ w ∧ w ≤ 10 then glyphOr w "" else fallback)
      ∧ (∀ w : Weather, 1 ≤ w ∧ w ≤ 10 →
          ∃ ico, icons.lookup w = some ico ∧ glyphOr w "" = String.singleton (Char.ofNat ico))
      ∧ (∀ (buf : String) (p : dataPoint α), (truncHour p.Time).Equal date = true →
          createHourlyStep F date buf p
            = buf ++ ("  " ++ p.Time.Format1504 ++ " "
                ++ (if 1 ≤ p.Weather ∧ p.Weather ≤ 10 then glyphOr p.Weather "" else p.Summary)
                ++ " " ++ F.sprintf1 p.Temperature ++ "℃" ++ "/"
                ++ F.sprintf1 p.ApparentTemperature ++ "℃" ++ " " ++ percent F p
                ++ (if p.Weather = WeatherSnow then accumulation F p else "") ++ "\n"))
      ∧ (∀ (buf : String) (p : dataPoint α),
          inDailyWindow date (date.AddDate loc dateRange) p = true →
          createDailyStep F date (date.AddDate loc dateRange) buf p
            = buf ++ (p.Time.Format0102 ++ " "
                ++ (if 1 ≤ p.Weather ∧ p.Weather ≤ 10 then glyphOr p.Weather "" else "??")
                ++ "  " ++ percent F p
                ++ (if p.Weather = WeatherSnow then accumulation F p else "") ++ "\n"
                ++ dailyHigh F p ++ "\n" ++ dailyLow F p ++ "\n" ++ "\n")) := by
  have hglyph : ∀ (w : Weather) (fallback : String),
      glyphOr w fallback = if 1 ≤ w ∧ w ≤ 10 then glyphOr w "" else fallback := by
    intro w fallback
    by_cases hw : 1 ≤ w ∧ w ≤ 10
    · obtain ⟨ico, hico⟩ := icons_lookup_defined w hw
      simp only [glyphOr, hico, hw, and_self, if_true]
    · simp only [glyphOr, icons_lookup_undefined w hw, hw, if_false]
  refine ⟨?_, rfl, rfl, rfl, hglyph, ?_, ?_, ?_⟩
  · intro w
    constructor
    · intro h
      by_contra hw
      rw [icons_lookup_undefined w hw] at h
      exact absurd h (by decide)
    · intro hw
      obtain ⟨ico, hico⟩ := icons_lookup_defined w hw
      rw [hico]
      rfl
  · intro w hw
    obtain ⟨ico, hico⟩ := icons_lookup_defined w hw
    exact ⟨ico, hico, by simp only [glyphOr, hico]⟩
  · intro buf p hsel
    have hsel2 : hourlySelected date p = true := by
      simpa [hourlySelected, Time.Equal] using hsel
    rw [createHourlyStep_eq, hsel2, ← hglyph]
    simp only [if_true, hourlyLine, hourlyHead]
  · intro buf p hwin
    rw [createDailyStep_eq]
    have hwin2 : decide (date.ns < (truncHour p.Time).ns
        ∧ (truncHour p.Time).ns ≤ (date.AddDate loc dateRange).ns) = true := by
      simpa [inDailyWindow] using hwin
    rw [hwin2, ← hglyph]
    simp only [if_true, dailyBlock, dailyFirst, dailyHead]

/-- Witness for C17: the 10:00:00 point of unknown condition is printed with its
summary text. -/
theorem icons_cover_defined_conditions_witness :
    createHourlyStep tenths (truncHour ref0900) "" point1000
      = "" ++ ("  " ++ point1000.Time.Format1504 ++ " "
          ++ (if 1 ≤ point1000.Weather ∧ point1000.Weather ≤ 10
              then glyphOr point1000.Weather "" else point1000.Summary)
          ++ " " ++ tenths.sprintf1 point1000.Temperature ++ "℃" ++ "/"
          ++ tenths.sprintf1 point1000.ApparentTemperature ++ "℃" ++ " " ++ percent tenths point1000
          ++ (if point1000.Weather = WeatherSnow then accumulation tenths point1000 else "")
          ++ "\n") :=
  (icons_cover_defined_conditions tenths (Location.fixed 0) (truncHour ref0900)).2.2.2.2.2.2.1
    "" point1000
    (by decide)

/-! ## Required configuration -/

/-- C18: `checkConfig` returns no error if and only if the four keys
`line-token`, `forecast-token`, `latitude`, `longitude` all have a non-empty
value; otherwise the error lists exactly the keys among them whose value is
empty, each once, in that order. -/
theorem checkConfig_required (GetString : String → String) :
    (checkConfig GetString = none
        ↔ (GetString "line-token" ≠ "" ∧ GetString "forecast-token" ≠ ""
            ∧ GetString "latitude" ≠ "" ∧ GetString "longitude" ≠ ""))
      ∧ (∀ err : requiredFlagsNotSetError, checkConfig GetString = some err →
          err = ["line-token", "forecast-token", "latitude", "longitude"].filter
            fun f => decide (GetString f = "")) := by
  constructor
  · by_cases h1 : GetString "line-token" = "" <;>
      by_cases h2 : GetString "forecast-token" = "" <;>
      by_cases h3 : GetString "latitude" = "" <;>
      by_cases h4 : GetString "longitude" = "" <;>
      simp [checkConfig, h1, h2, h3, h4]
  · intro err
    by_cases h1 : GetString "line-token" = "" <;>
      by_cases h2 : GetString "forecast-token" = "" <;>
      by_cases h3 : GetString "latitude" = "" <;>
      by_cases h4 : GetString "longitude" = "" <;>
      simp [checkConfig, List.filter, h1, h2, h3, h4] <;>
      (intro h; exact h.symm)

/-- Witness for C18: with only the latitude set, the error lists the three other
keys in order. -/
theorem checkConfig_required_witness :
    ["line-token", "forecast-token", "longitude"]
      = ["line-token", "forecast-token", "latitude", "longitude"].filter
          fun f => decide ((fun k => if k = "latitude" then "1" else "") f = "") :=
  (checkConfig_required fun k => if k = "latitude" then "1" else "").2
    ["line-token", "forecast-token", "longitude"] (by decide)

/-! ## `truncHour` and time zones -/

/-- C19, at an offset that is not a whole number of hours: for
2024-01-01T09:10:00 at five and a half hours east, `truncHour` gives
2023-12-31T23:30:00 in that zone, on the day before, with minute 30, and a
second application moves the result again. -/
theorem truncHour_half_hour_offset :
    truncHour halfHourInstant = Time.Unix 19800 (jan1 - 6 * 3600) 0
      ∧ (truncHour halfHourInstant).wallDay = halfHourInstant.wallDay - 1
      ∧ (truncHour halfHourInstant).hourOfDay = 23
      ∧ (truncHour halfHourInstant).minuteOfHour = 30
      ∧ truncHour (truncHour halfHourInstant) ≠ truncHour halfHourInstant := by
  decide

/-- For an offset that is a whole number of hours `truncHour` is the start of
the calendar day of the instant in its zone: not later than the instant, on
the same day, with hour, minute and second zero, and unchanged by a second
application. -/
theorem truncHour_whole_hour_offset (t : Time) (h : t.off % 3600 = 0) :
    (truncHour t).ns ≤ t.ns ∧ (truncHour t).off = t.off
      ∧ (truncHour t).wallDay = t.wallDay
      ∧ (truncHour t).wallSec % 86400 = 0
      ∧ (truncHour t).ns % 1000000000 = 0
      ∧ truncHour (truncHour t) = truncHour t := by
  have hoff : (truncHour t).off = t.off := by
    simp only [truncHour, Time.Truncate, Time.Add, Time.Hour, Time.Second]
    norm_num
  have hns := truncHour_ns_of_whole_hour_offset t h
  have hns2 := truncHour_ns_of_whole_hour_offset (truncHour t) (by rw [hoff]; exact h)
  have hday : (truncHour t).wallDay = t.wallDay := by
    simp only [Time.wallDay, Time.wallSec, Time.Second, hoff, hns]
    omega
  refine ⟨?_, hoff, hday, ?_, ?_, ?_⟩
  · rw [hns]
    simp only [Time.wallDay, Time.wallSec, Time.Second]
    omega
  · simp only [Time.wallSec, Time.Second, hoff, hns]
    omega
  · rw [hns]
    omega
  · have hns3 : (truncHour (truncHour t)).ns = (truncHour t).ns := by
      rw [hns2, hday, hoff, hns]
    have hoff2 : (truncHour (truncHour t)).off = (truncHour t).off := by
      simp only [truncHour, Time.Truncate, Time.Add, Time.Hour, Time.Second]
      norm_num
    cases hA : truncHour (truncHour t) with
    | mk ns1 off1 =>
      cases hB : truncHour t with
      | mk ns2 off2 =>
        rw [hA, hB] at hns3 hoff2
        simp only at hns3 hoff2
        rw [hns3, hoff2]

/-- C20, at a process zone that differs from the forecast zone: for the
reference 2024-01-01T09:00:00 nine hours east, the hourly point at noon of that
day in that zone gets no line when its time was decoded in a process at UTC,
and gets its line when decoded in a process nine hours east. -/
theorem createHourly_depends_on_local_zone :
    apiTime.UnmarshalJSON 0 (JSON.ofInt (jan1 + 3 * 3600)) = Except.ok (noonPoint 0).Time
      ∧ apiTime.UnmarshalJSON 32400 (JSON.ofInt (jan1 + 3 * 3600))
          = Except.ok (noonPoint 32400).Time
      ∧ ((noonPoint 0).Time.In (Location.fixed 32400)).wallDay
          = (tokyoReference.In (Location.fixed 32400)).wallDay
      ∧ createHourly tenths (truncHour (tokyoReference.In (Location.fixed 32400)))
          (sampleForecast [noonPoint 0] []) = ""
      ∧ createHourly tenths (truncHour (tokyoReference.In (Location.fixed 32400)))
          (sampleForecast [noonPoint 32400] []) = "  12:00 ☃ 5.2℃/3.5℃ 50%\n" :=
  ⟨rfl, rfl, by decide, by decide, by decide⟩

end Weatherline
